import Mathlib

/-!
# CancelOrder instruction builder (`programs/system/CancelOrder.go`)

A shallow embedding of the `CancelOrder` builder: a Go pointer that may be nil
is an `Option`, the account slice is a list of optional account references, a
Go `error` is an optional message, and a run-time panic (nil dereference, index
out of range) is the `error` side of `Except Panic`.

Where pointer identity and the sharing of a slice's backing array matter, the
namespace `Heap` embeds the same methods over an explicit memory; it is related
to the first embedding by simulation lemmas.
-/

namespace SolanaGo

/-! ## Collaborator types -/

/-- One byte of wire data. -/
abbrev Byte := Fin 256

/-- Run-time panics of the Go program that the embedding keeps track of. -/
inductive Panic where
  | nilDereference
  | indexOutOfRange (index length : Nat)
  deriving DecidableEq, Repr

/-- A Go `error` value: `none` is `nil`, `some msg` is an error whose text is `msg`. -/
abbrev GoError := Option String

/-- Modelled from the spec: the address type `ag_solanago.PublicKey` is declared
outside this file; the spec describes it as a 32-byte public key, opaque beyond
equality and serialization. -/
structure PublicKey where
  val : Fin (2 ^ 256)
  deriving DecidableEq

/-- Modelled from the spec: `ag_solanago.AccountMeta` is declared outside this
file; the spec gives an account reference as an address together with a
writable flag and a signer flag. -/
structure AccountMeta where
  PublicKey : PublicKey
  IsWritable : Bool
  IsSigner : Bool
  deriving DecidableEq

/-- Modelled from the spec: `ag_solanago.Meta` is defined outside this file; it
makes a reference to an address with no capability granted yet. -/
def Meta (pubKey : PublicKey) : AccountMeta :=
  { PublicKey := pubKey, IsWritable := false, IsSigner := false }

/-- Modelled from the spec: `AccountMeta.WRITE` is defined outside this file; it
marks the reference writable and returns it. -/
def AccountMeta.WRITE (m : AccountMeta) : AccountMeta :=
  { m with IsWritable := true }

/-- Modelled from the spec: `AccountMeta.SIGNER` is defined outside this file; it
marks the reference as a signer and returns it. -/
def AccountMeta.SIGNER (m : AccountMeta) : AccountMeta :=
  { m with IsSigner := true }

/-- Modelled from the spec: `serum.Side` is declared outside this file; the spec
describes it as an enumerated buy/sell tag with a stable binary tag, Sell
having tag 1. -/
inductive Side where
  | Buy
  | Sell
  deriving DecidableEq, Repr

/-- Modelled from the spec: the stable binary tag of a `serum.Side`. -/
def Side.tag : Side → Nat
  | Side.Buy => 0
  | Side.Sell => 1

/-- Modelled from the spec: `bin.Uint128` is declared outside this file; the spec
describes it as a 128-bit unsigned integer. -/
structure Uint128 where
  val : Nat
  isLt : val < 2 ^ 128
  deriving DecidableEq

/-- The slice type `ag_solanago.AccountMetaSlice`, `[]*AccountMeta`: a nil
pointer is `none`. -/
abbrev AccountMetaSlice := List (Option AccountMeta)

/-- Go's `s[i]` read: panics when `i` is out of range. -/
def sliceGet {α : Type} (s : List α) (i : Nat) : Except Panic α :=
  match s[i]? with
  | some v => Except.ok v
  | none => Except.error (Panic.indexOutOfRange i s.length)

/-- Go's `s[i] = v` write: panics when `i` is out of range. -/
def sliceSet {α : Type} (s : List α) (i : Nat) (v : α) : Except Panic (List α) :=
  if i < s.length then Except.ok (s.set i v)
  else Except.error (Panic.indexOutOfRange i s.length)

/-! ## The binary codec -/

/-- The `n` low bytes of `v`, least significant first (little-endian). -/
def leBytes : Nat → Nat → List Byte
  | 0, _ => []
  | n + 1, v => ⟨v % 256, Nat.mod_lt v (by decide)⟩ :: leBytes n (v / 256)

/-- The number that a little-endian byte sequence stands for. -/
def leValue : List Byte → Nat
  | [] => 0
  | b :: bs => b.val + 256 * leValue bs

/-- Modelled from the spec: `ag_binary.Encoder` is defined outside this file; the
spec describes the codec as a pure in-memory writer of fixed-width
little-endian fields, so the encoder is the bytes written so far. -/
structure Encoder where
  written : List Byte
  deriving DecidableEq

/-- Modelled from the spec: `ag_binary.NewBinEncoder` on an empty buffer. -/
def NewBinEncoder : Encoder := { written := [] }

/-- Modelled from the spec: appending raw bytes to the encoder's output; an
in-memory write reports no error. -/
def Encoder.WriteBytes (e : Encoder) (bs : List Byte) : Encoder × GoError :=
  ({ written := e.written ++ bs }, none)

/-- Modelled from the spec: `Encoder.Encode` at a `serum.Side`, the enumerated
tag as one byte (`bytes [4..5): Side (uint8 enumerated tag)`). -/
def Encoder.EncodeSide (e : Encoder) (s : Side) : Encoder × GoError :=
  e.WriteBytes (leBytes 1 s.tag)

/-- Modelled from the spec: `Encoder.Encode` at a `bin.Uint128`, sixteen bytes
little-endian (`bytes [5..21): OrderId (uint128)`). -/
def Encoder.EncodeUint128 (e : Encoder) (o : Uint128) : Encoder × GoError :=
  e.WriteBytes (leBytes 16 o.val)

/-- Modelled from the spec: `ag_binary.Decoder` is defined outside this file; the
decoder is the bytes not yet consumed. -/
structure Decoder where
  data : List Byte
  deriving DecidableEq

/-- Modelled from the spec: reading `n` bytes fails when fewer than `n` remain
(truncated input) and otherwise consumes exactly `n` bytes. -/
def Decoder.ReadNBytes (d : Decoder) (n : Nat) : Decoder × Except String (List Byte) :=
  if n ≤ d.data.length then ({ data := d.data.drop n }, Except.ok (d.data.take n))
  else (d, Except.error "unexpected end of input")

/-- Modelled from the spec: the `serum.Side` with a given binary tag; a tag that
is no enumerated value is invalid. -/
def Side.ofTag : Nat → Option Side
  | 0 => some Side.Buy
  | 1 => some Side.Sell
  | _ => none

/-- Modelled from the spec: `Decoder.Decode` at a `*serum.Side`: one byte, which
must be the tag of an enumerated value. -/
def Decoder.DecodeSide (d : Decoder) : Decoder × Except String Side :=
  match d.ReadNBytes 1 with
  | (d1, Except.error err) => (d1, Except.error err)
  | (d1, Except.ok bs) =>
    match Side.ofTag (leValue bs) with
    | some s => (d1, Except.ok s)
    | none => (d1, Except.error "invalid Side tag")

/-- Modelled from the spec: `Decoder.Decode` at a `*bin.Uint128`: sixteen bytes
little-endian. -/
def Decoder.DecodeUint128 (d : Decoder) : Decoder × Except String Uint128 :=
  match d.ReadNBytes 16 with
  | (d1, Except.error err) => (d1, Except.error err)
  | (d1, Except.ok bs) =>
    (d1, Except.ok
      { val := leValue bs % 2 ^ 128, isLt := Nat.mod_lt _ (Nat.two_pow_pos 128) })

/-- Modelled from the spec: `ag_binary.TypeID` is declared outside this file; it
holds the bytes of the fixed-width discriminant. -/
structure TypeID where
  bytes : List Byte
  deriving DecidableEq

/-- Modelled from the spec: `ag_binary.TypeIDFromUint32(v, binary.LittleEndian)`,
the discriminant as a 4-byte little-endian unsigned integer. -/
def TypeIDFromUint32 (v : Fin (2 ^ 32)) : TypeID :=
  { bytes := leBytes 4 v.val }

/-- Modelled from the spec: reading a `TypeID` back as a little-endian number. -/
def TypeID.Uint32 (t : TypeID) : Nat :=
  leValue t.bytes

/-! ## The builder -/

/-- The struct `CancelOrder`: two optional parameters and the embedded account
slice. -/
structure CancelOrder where
  Side : Option Side
  OrderId : Option Uint128
  AccountMetaSlice : AccountMetaSlice

/-- `NewCancelOrderInstructionBuilder`: both parameters nil, six nil slots. -/
def NewCancelOrderInstructionBuilder : CancelOrder :=
  { Side := none, OrderId := none, AccountMetaSlice := List.replicate 6 none }

namespace CancelOrder

/-- `SetSide`: `c.Side = &s`. -/
def SetSide (c : CancelOrder) (s : SolanaGo.Side) : CancelOrder :=
  { c with Side := some s }

/-- `SetOrderId`: `c.OrderId = &o`. -/
def SetOrderId (c : CancelOrder) (o : Uint128) : CancelOrder :=
  { c with OrderId := some o }

/-- `SetMarketAccount`: `c.AccountMetaSlice[0] = Meta(a).WRITE()`. -/
def SetMarketAccount (c : CancelOrder) (a : PublicKey) : Except Panic CancelOrder :=
  (sliceSet c.AccountMetaSlice 0 (some (Meta a).WRITE)).map
    (fun s => { c with AccountMetaSlice := s })

/-- `SetBidsAccount`: `c.AccountMetaSlice[1] = Meta(a).WRITE()`. -/
def SetBidsAccount (c : CancelOrder) (a : PublicKey) : Except Panic CancelOrder :=
  (sliceSet c.AccountMetaSlice 1 (some (Meta a).WRITE)).map
    (fun s => { c with AccountMetaSlice := s })

/-- `SetAsksAccount`: `c.AccountMetaSlice[2] = Meta(a).WRITE()`. -/
def SetAsksAccount (c : CancelOrder) (a : PublicKey) : Except Panic CancelOrder :=
  (sliceSet c.AccountMetaSlice 2 (some (Meta a).WRITE)).map
    (fun s => { c with AccountMetaSlice := s })

/-- `SetOpenOrdersAccount`: `c.AccountMetaSlice[3] = Meta(a).WRITE()`. -/
def SetOpenOrdersAccount (c : CancelOrder) (a : PublicKey) : Except Panic CancelOrder :=
  (sliceSet c.AccountMetaSlice 3 (some (Meta a).WRITE)).map
    (fun s => { c with AccountMetaSlice := s })

/-- `SetOwnerAccount`: `c.AccountMetaSlice[4] = Meta(a).WRITE().SIGNER()`. -/
def SetOwnerAccount (c : CancelOrder) (a : PublicKey) : Except Panic CancelOrder :=
  (sliceSet c.AccountMetaSlice 4 (some (Meta a).WRITE.SIGNER)).map
    (fun s => { c with AccountMetaSlice := s })

/-- `SetEventQueueAccount`: `c.AccountMetaSlice[5] = Meta(a).WRITE()`. -/
def SetEventQueueAccount (c : CancelOrder) (a : PublicKey) : Except Panic CancelOrder :=
  (sliceSet c.AccountMetaSlice 5 (some (Meta a).WRITE)).map
    (fun s => { c with AccountMetaSlice := s })

/-- `MarketAccount`: `c.AccountMetaSlice[0]`. -/
def MarketAccount (c : CancelOrder) : Except Panic (Option AccountMeta) :=
  sliceGet c.AccountMetaSlice 0

/-- `BidsAccount`: `c.AccountMetaSlice[1]`. -/
def BidsAccount (c : CancelOrder) : Except Panic (Option AccountMeta) :=
  sliceGet c.AccountMetaSlice 1

/-- `AsksAccount`: `c.AccountMetaSlice[2]`. -/
def AsksAccount (c : CancelOrder) : Except Panic (Option AccountMeta) :=
  sliceGet c.AccountMetaSlice 2

/-- `OpenOrdersAccount`: `c.AccountMetaSlice[3]`. -/
def OpenOrdersAccount (c : CancelOrder) : Except Panic (Option AccountMeta) :=
  sliceGet c.AccountMetaSlice 3

/-- `OwnerAccount`: `c.AccountMetaSlice[4]`. -/
def OwnerAccount (c : CancelOrder) : Except Panic (Option AccountMeta) :=
  sliceGet c.AccountMetaSlice 4

/-- `EventQueueAccount`: `c.AccountMetaSlice[5]`. -/
def EventQueueAccount (c : CancelOrder) : Except Panic (Option AccountMeta) :=
  sliceGet c.AccountMetaSlice 5

/-- The message of `errors.New("CancelOrder.Side parameter is not set")`. -/
def sideNotSet : String := "CancelOrder.Side parameter is not set"

/-- The message of `errors.New("CancelOrder.OrderId parameter is not set")`. -/
def orderIdNotSet : String := "CancelOrder.OrderId parameter is not set"

/-- The message of `fmt.Errorf("CancelOrder.AccountMetaSlice[%v] is not set", accIndex)`. -/
def accountNotSet (accIndex : Nat) : String :=
  "CancelOrder.AccountMetaSlice[" ++ toString accIndex ++ "] is not set"

/-- The loop `for accIndex, acc := range c.AccountMetaSlice` of `Validate`, run
on the slots that remain, the first of them having index `accIndex`. -/
def validateAccounts : SolanaGo.AccountMetaSlice → Nat → GoError
  | [], _ => none
  | none :: _, accIndex => some (accountNotSet accIndex)
  | some _ :: rest, accIndex => validateAccounts rest (accIndex + 1)

/-- `Validate`: Side, then OrderId, then the account slots in ascending order. -/
def Validate (c : CancelOrder) : GoError :=
  if c.Side = none then some sideNotSet
  else if c.OrderId = none then some orderIdNotSet
  else validateAccounts c.AccountMetaSlice 0

/-- `MarshalWithEncoder`: encodes `*c.Side`, then `*c.OrderId`; dereferencing a
nil parameter panics. -/
def MarshalWithEncoder (c : CancelOrder) (encoder : Encoder) :
    Except Panic (Encoder × GoError) :=
  match c.Side with
  | none => Except.error Panic.nilDereference
  | some side =>
    match encoder.EncodeSide side with
    | (encoder1, some err) => Except.ok (encoder1, some err)
    | (encoder1, none) =>
      match c.OrderId with
      | none => Except.error Panic.nilDereference
      | some orderId => Except.ok (encoder1.EncodeUint128 orderId)

/-- `UnmarshalWithDecoder`: decodes into `c.Side`, then into `c.OrderId`; the
first decoding error is returned at once. -/
def UnmarshalWithDecoder (c : CancelOrder) (decoder : Decoder) :
    CancelOrder × Decoder × GoError :=
  match decoder.DecodeSide with
  | (decoder1, Except.error err) => (c, decoder1, some err)
  | (decoder1, Except.ok side) =>
    match decoder1.DecodeUint128 with
    | (decoder2, Except.error err) => ({ c with Side := some side }, decoder2, some err)
    | (decoder2, Except.ok orderId) =>
      ({ c with Side := some side, OrderId := some orderId }, decoder2, none)

end CancelOrder

/-! ## The variant envelope -/

/-- Modelled from the spec: `ag_binary.BaseVariant` is declared outside this
file; the envelope pairs the discriminant with the built instruction. -/
structure BaseVariant where
  TypeID : TypeID
  Impl : CancelOrder

/-- Modelled from the spec: the type `Instruction` of this package is declared
outside this file; it embeds a `BaseVariant`. -/
structure Instruction where
  BaseVariant : BaseVariant

namespace CancelOrder

/-- `Build`: wraps a copy of `c` with the type id of the constant
`Instruction_CancelOrder`, which is declared outside this file and is taken as
a parameter. -/
def Build (Instruction_CancelOrder : Fin (2 ^ 32)) (c : CancelOrder) : Instruction :=
  { BaseVariant :=
      { Impl := c
        TypeID := TypeIDFromUint32 Instruction_CancelOrder } }

/-- `ValidateAndBuild`: the validation error and no instruction, or the built
instruction and no error. -/
def ValidateAndBuild (Instruction_CancelOrder : Fin (2 ^ 32)) (c : CancelOrder) :
    Option Instruction × GoError :=
  match c.Validate with
  | some err => (none, some err)
  | none => (some (c.Build Instruction_CancelOrder), none)

end CancelOrder

namespace Instruction

/-- Modelled from the spec: `Instruction.MarshalWithEncoder` is defined outside
this file; it writes the discriminant as a 4-byte little-endian unsigned
integer, immediately followed by the parameters of the wrapped instruction. -/
def MarshalWithEncoder (inst : Instruction) (encoder : Encoder) :
    Except Panic (Encoder × GoError) :=
  match encoder.WriteBytes inst.BaseVariant.TypeID.bytes with
  | (encoder1, some err) => Except.ok (encoder1, some err)
  | (encoder1, none) => inst.BaseVariant.Impl.MarshalWithEncoder encoder1

/-- Modelled from the spec: `Instruction.Data` is defined outside this file; the
data payload is what encoding the envelope into an empty buffer writes. -/
def Data (inst : Instruction) : Except Panic (List Byte × GoError) :=
  match inst.MarshalWithEncoder NewBinEncoder with
  | Except.error p => Except.error p
  | Except.ok (_, some err) => Except.ok ([], some err)
  | Except.ok (encoder1, none) => Except.ok (encoder1.written, none)

/-- Modelled from the spec: decoding a data payload is defined outside this file;
it reads the 4-byte discriminant, dispatches on it, and decodes the parameters
into a new `CancelOrder`, whose account slice stays nil. -/
def Decode (Instruction_CancelOrder : Fin (2 ^ 32)) (data : List Byte) :
    Option Instruction × GoError :=
  match (Decoder.mk data).ReadNBytes 4 with
  | (_, Except.error err) => (none, some err)
  | (decoder1, Except.ok idBytes) =>
    if leValue idBytes = Instruction_CancelOrder.val then
      match CancelOrder.UnmarshalWithDecoder
          { Side := none, OrderId := none, AccountMetaSlice := [] } decoder1 with
      | (_, _, some err) => (none, some err)
      | (impl, _, none) =>
        (some { BaseVariant := { TypeID := { bytes := idBytes }, Impl := impl } }, none)
    else (none, some "no known type for this type id")

end Instruction

/-! ## Auxiliary notions and sample inputs -/

namespace CancelOrder

/-- A slot holds a reference when it is in range and not nil. -/
def slotSet (c : CancelOrder) (i : Nat) : Prop :=
  ∃ m, c.AccountMetaSlice[i]? = some (some m)

/-- The builder `c1` differs from `c` in slot `i` only, which holds `m`: same Side,
same OrderId, same number of slots, every other slot as before. -/
def writesOnlySlot (c c1 : CancelOrder) (i : Nat) (m : AccountMeta) : Prop :=
  c1.Side = c.Side ∧ c1.OrderId = c.OrderId ∧
    c1.AccountMetaSlice.length = c.AccountMetaSlice.length ∧
    c1.AccountMetaSlice[i]? = some (some m) ∧
    ∀ j, j ≠ i → c1.AccountMetaSlice[j]? = c.AccountMetaSlice[j]?

end CancelOrder

/-- A sample address. -/
def sampleKey (n : Nat) : PublicKey :=
  { val := ⟨n % 2 ^ 256, Nat.mod_lt n (Nat.two_pow_pos 256)⟩ }

/-- The order id `0x0102030405060708090A0B0C0D0E0F10`. -/
def sampleOrderId : Uint128 :=
  { val := 0x0102030405060708090A0B0C0D0E0F10, isLt := by decide }

/-- A fully populated builder: Side = Sell, the sample order id, six accounts. -/
def fullBuilder : CancelOrder :=
  { Side := some Side.Sell
    OrderId := some sampleOrderId
    AccountMetaSlice :=
      [some (Meta (sampleKey 10)).WRITE, some (Meta (sampleKey 11)).WRITE,
       some (Meta (sampleKey 12)).WRITE, some (Meta (sampleKey 13)).WRITE,
       some (Meta (sampleKey 14)).WRITE.SIGNER, some (Meta (sampleKey 15)).WRITE] }

/-- The fully populated builder with the owner slot (index 4) left nil. -/
def ownerUnsetBuilder : CancelOrder :=
  { fullBuilder with AccountMetaSlice := fullBuilder.AccountMetaSlice.set 4 none }

/-- A builder with neither Side nor the market slot set, everything else set. -/
def sideAndMarketUnsetBuilder : CancelOrder :=
  { fullBuilder with Side := none, AccountMetaSlice := fullBuilder.AccountMetaSlice.set 0 none }

/-! ## The convenience constructor and call sequences -/

/-- `NewCancelOrderInstruction`: the builder chain of the source, argument for
argument: the bids and asks setters receive `marketAccount` and the event
queue setter receives `ownerAccount`. -/
def NewCancelOrderInstruction (side : Side) (orderId : Uint128)
    (marketAccount bidsAccount asksAccount openOrdersAccount ownerAccount
      eventQeueueAccount : PublicKey) : Except Panic CancelOrder :=
  ((NewCancelOrderInstructionBuilder.SetSide side).SetOrderId orderId).SetMarketAccount
      marketAccount >>= fun c1 =>
    c1.SetBidsAccount marketAccount >>= fun c2 =>
    c2.SetAsksAccount marketAccount >>= fun c3 =>
    c3.SetOpenOrdersAccount openOrdersAccount >>= fun c4 =>
    c4.SetOwnerAccount ownerAccount >>= fun c5 =>
    c5.SetEventQueueAccount ownerAccount

/-- One call of a setter of the builder, with its argument. -/
inductive SetterCall where
  | SetSide (s : Side)
  | SetOrderId (o : Uint128)
  | SetMarketAccount (a : PublicKey)
  | SetBidsAccount (a : PublicKey)
  | SetAsksAccount (a : PublicKey)
  | SetOpenOrdersAccount (a : PublicKey)
  | SetOwnerAccount (a : PublicKey)
  | SetEventQueueAccount (a : PublicKey)

/-- The effect of one setter call on the builder. -/
def SetterCall.run : SetterCall → CancelOrder → Except Panic CancelOrder
  | SetterCall.SetSide s, c => Except.ok (c.SetSide s)
  | SetterCall.SetOrderId o, c => Except.ok (c.SetOrderId o)
  | SetterCall.SetMarketAccount a, c => c.SetMarketAccount a
  | SetterCall.SetBidsAccount a, c => c.SetBidsAccount a
  | SetterCall.SetAsksAccount a, c => c.SetAsksAccount a
  | SetterCall.SetOpenOrdersAccount a, c => c.SetOpenOrdersAccount a
  | SetterCall.SetOwnerAccount a, c => c.SetOwnerAccount a
  | SetterCall.SetEventQueueAccount a, c => c.SetEventQueueAccount a

/-- A finite sequence of setter calls, run in order; a panic stops the run. -/
def runSetters : List SetterCall → CancelOrder → Except Panic CancelOrder
  | [], c => Except.ok c
  | call :: rest, c =>
    match call.run c with
    | Except.ok c1 => runSetters rest c1
    | Except.error p => Except.error p

/-- Whether a setter call is a call of `SetOrderId`. -/
def SetterCall.isSetOrderId : SetterCall → Bool
  | SetterCall.SetOrderId _ => true
  | _ => false

/-- The order id 0. -/
def zeroOrderId : Uint128 :=
  { val := 0, isLt := by decide }

/-! ## The builder in memory

The builder is used through a pointer `*CancelOrder`, and a Go slice value
points to a backing array. To follow what a built instruction shares with its
builder, the same code is embedded a second time over an explicit memory of
struct cells and backing arrays. -/

namespace Heap

/-- A Go slice value of type `AccountMetaSlice`: the address of its backing
array and its length. -/
structure Slice where
  array : Nat
  len : Nat
  deriving DecidableEq

/-- The struct `CancelOrder` as a Go value: the two parameter pointers (a pointee
is never written after it is stored, so the pointer is the optional value) and
the slice value of the embedded `AccountMetaSlice`. -/
structure CancelOrder where
  Side : Option SolanaGo.Side
  OrderId : Option Uint128
  AccountMetaSlice : Slice
  deriving DecidableEq

/-- The memory: the struct cells that `*CancelOrder` pointers address and the
backing arrays that slice values address; an address is a position. -/
structure Memory where
  structs : List CancelOrder
  arrays : List (List (Option AccountMeta))
  deriving DecidableEq

/-- Dereferencing a `*CancelOrder`; an address that holds no struct is nil. -/
def Memory.load (mem : Memory) (p : Nat) : Except Panic CancelOrder :=
  match mem.structs[p]? with
  | some v => Except.ok v
  | none => Except.error Panic.nilDereference

/-- Writing a struct cell through its pointer. -/
def Memory.store (mem : Memory) (p : Nat) (v : CancelOrder) : Memory :=
  { mem with structs := mem.structs.set p v }

/-- The elements seen through a slice value: the first `len` cells of its
backing array. -/
def Memory.elems (mem : Memory) (s : Slice) : SolanaGo.AccountMetaSlice :=
  ((mem.arrays[s.array]?).getD []).take s.len

/-- Go's `s[i] = v` on a slice value: the write goes to the backing array and
panics when `i` is out of range. -/
def Memory.assign (mem : Memory) (s : Slice) (i : Nat) (v : Option AccountMeta) :
    Except Panic Memory :=
  if i < (mem.elems s).length then
    Except.ok
      { mem with arrays := mem.arrays.set s.array (((mem.arrays[s.array]?).getD []).set i v) }
  else Except.error (Panic.indexOutOfRange i (mem.elems s).length)

/-- What is observed through a struct value in a given memory: its parameters and
the elements of its slice. -/
def Memory.view (mem : Memory) (v : CancelOrder) : SolanaGo.CancelOrder :=
  { Side := v.Side, OrderId := v.OrderId, AccountMetaSlice := mem.elems v.AccountMetaSlice }

/-- `NewCancelOrderInstructionBuilder`: allocates the backing array of
`make(AccountMetaSlice, 6)` and the struct, and returns the pointer. -/
def NewCancelOrderInstructionBuilder (mem : Memory) : Memory × Nat :=
  ({ structs := mem.structs ++
        [{ Side := none, OrderId := none,
           AccountMetaSlice := { array := mem.arrays.length, len := 6 } }]
     arrays := mem.arrays ++ [List.replicate 6 none] },
   mem.structs.length)

/-- The body shared by the six account setters: `c.AccountMetaSlice[i] = m`,
then `return c`. -/
def setAccount (mem : Memory) (c : Nat) (i : Nat) (m : AccountMeta) :
    Except Panic (Memory × Nat) :=
  match mem.load c with
  | Except.error p => Except.error p
  | Except.ok v =>
    match mem.assign v.AccountMetaSlice i (some m) with
    | Except.error p => Except.error p
    | Except.ok mem1 => Except.ok (mem1, c)

/-- Modelled from the spec: the envelope types are declared outside this file;
here the wrapped instruction is a `CancelOrder` struct value. -/
structure BaseVariant where
  TypeID : TypeID
  Impl : CancelOrder

/-- Modelled from the spec: the type `Instruction`, embedding a `BaseVariant`. -/
structure Instruction where
  BaseVariant : BaseVariant

namespace CancelOrder

/-- `SetSide`: `c.Side = &s`, `return c`. -/
def SetSide (mem : Memory) (c : Nat) (s : SolanaGo.Side) : Except Panic (Memory × Nat) :=
  match mem.load c with
  | Except.error p => Except.error p
  | Except.ok v => Except.ok (mem.store c { v with Side := some s }, c)

/-- `SetOrderId`: `c.OrderId = &o`, `return c`. -/
def SetOrderId (mem : Memory) (c : Nat) (o : Uint128) : Except Panic (Memory × Nat) :=
  match mem.load c with
  | Except.error p => Except.error p
  | Except.ok v => Except.ok (mem.store c { v with OrderId := some o }, c)

/-- `SetMarketAccount`: `c.AccountMetaSlice[0] = Meta(a).WRITE()`, `return c`. -/
def SetMarketAccount (mem : Memory) (c : Nat) (a : PublicKey) : Except Panic (Memory × Nat) :=
  setAccount mem c 0 (Meta a).WRITE

/-- `SetBidsAccount`: `c.AccountMetaSlice[1] = Meta(a).WRITE()`, `return c`. -/
def SetBidsAccount (mem : Memory) (c : Nat) (a : PublicKey) : Except Panic (Memory × Nat) :=
  setAccount mem c 1 (Meta a).WRITE

/-- `SetAsksAccount`: `c.AccountMetaSlice[2] = Meta(a).WRITE()`, `return c`. -/
def SetAsksAccount (mem : Memory) (c : Nat) (a : PublicKey) : Except Panic (Memory × Nat) :=
  setAccount mem c 2 (Meta a).WRITE

/-- `SetOpenOrdersAccount`: `c.AccountMetaSlice[3] = Meta(a).WRITE()`, `return c`. -/
def SetOpenOrdersAccount (mem : Memory) (c : Nat) (a : PublicKey) :
    Except Panic (Memory × Nat) :=
  setAccount mem c 3 (Meta a).WRITE

/-- `SetOwnerAccount`: `c.AccountMetaSlice[4] = Meta(a).WRITE().SIGNER()`, `return c`. -/
def SetOwnerAccount (mem : Memory) (c : Nat) (a : PublicKey) : Except Panic (Memory × Nat) :=
  setAccount mem c 4 (Meta a).WRITE.SIGNER

/-- `SetEventQueueAccount`: `c.AccountMetaSlice[5] = Meta(a).WRITE()`, `return c`. -/
def SetEventQueueAccount (mem : Memory) (c : Nat) (a : PublicKey) :
    Except Panic (Memory × Nat) :=
  setAccount mem c 5 (Meta a).WRITE

/-- `Build`, a method with a value receiver: called through the pointer it copies
the struct, slice value included, into the envelope. -/
def Build (Instruction_CancelOrder : Fin (2 ^ 32)) (mem : Memory) (c : Nat) :
    Except Panic Instruction :=
  match mem.load c with
  | Except.error p => Except.error p
  | Except.ok v =>
    Except.ok
      { BaseVariant :=
          { Impl := v
            TypeID := TypeIDFromUint32 Instruction_CancelOrder } }

/-- `Validate`, a method with a pointer receiver: it reads the struct and the
slots and returns the memory as it found it, with the error. -/
def Validate (mem : Memory) (c : Nat) : Except Panic (Memory × GoError) :=
  match mem.load c with
  | Except.error p => Except.error p
  | Except.ok v =>
    if v.Side = none then Except.ok (mem, some SolanaGo.CancelOrder.sideNotSet)
    else if v.OrderId = none then Except.ok (mem, some SolanaGo.CancelOrder.orderIdNotSet)
    else Except.ok (mem, SolanaGo.CancelOrder.validateAccounts (mem.elems v.AccountMetaSlice) 0)

/-- `n` calls of `Validate` in a row on the same pointer, with the outcome of
each call. -/
def validateTimes : Nat → Memory → Nat → Except Panic (Memory × List GoError)
  | 0, mem, _ => Except.ok (mem, [])
  | n + 1, mem, c =>
    match Validate mem c with
    | Except.error p => Except.error p
    | Except.ok (mem1, err) =>
      match validateTimes n mem1 c with
      | Except.error p => Except.error p
      | Except.ok (mem2, errs) => Except.ok (mem2, err :: errs)

end CancelOrder

/-- The effect of one setter call on the builder behind the pointer `c`. -/
def runCall : SetterCall → Memory → Nat → Except Panic (Memory × Nat)
  | SetterCall.SetSide s, mem, c => CancelOrder.SetSide mem c s
  | SetterCall.SetOrderId o, mem, c => CancelOrder.SetOrderId mem c o
  | SetterCall.SetMarketAccount a, mem, c => CancelOrder.SetMarketAccount mem c a
  | SetterCall.SetBidsAccount a, mem, c => CancelOrder.SetBidsAccount mem c a
  | SetterCall.SetAsksAccount a, mem, c => CancelOrder.SetAsksAccount mem c a
  | SetterCall.SetOpenOrdersAccount a, mem, c => CancelOrder.SetOpenOrdersAccount mem c a
  | SetterCall.SetOwnerAccount a, mem, c => CancelOrder.SetOwnerAccount mem c a
  | SetterCall.SetEventQueueAccount a, mem, c => CancelOrder.SetEventQueueAccount mem c a

/-- A chain of setter calls, each made on the pointer the previous one returned. -/
def runCalls : List SetterCall → Memory → Nat → Except Panic (Memory × Nat)
  | [], mem, c => Except.ok (mem, c)
  | call :: rest, mem, c =>
    match runCall call mem c with
    | Except.ok (mem1, c1) => runCalls rest mem1 c1
    | Except.error p => Except.error p

/-- The empty memory. -/
def emptyMemory : Memory := { structs := [], arrays := [] }

/-- The memory after `NewCancelOrderInstructionBuilder()` in the empty memory; the
builder is at address 0. -/
def freshMemory : Memory := (NewCancelOrderInstructionBuilder emptyMemory).1

end Heap

/-- Whether a setter call is a call of `SetSide` or of `SetOrderId`. -/
def SetterCall.isParameterSetter : SetterCall → Bool
  | SetterCall.SetSide _ => true
  | SetterCall.SetOrderId _ => true
  | _ => false

/-! ## Facts about validation -/

namespace CancelOrder

theorem validateAccounts_eq_none (s : SolanaGo.AccountMetaSlice) (k : Nat) :
    validateAccounts s k = none ↔ ∀ i, i < s.length → ∃ m, s[i]? = some (some m) := by
  induction s generalizing k with
  | nil => simp [validateAccounts]
  | cons x rest ih =>
    cases x with
    | none =>
      simp only [validateAccounts, List.length_cons]
      constructor
      · intro h; cases h
      · intro h
        obtain ⟨m, hm⟩ := h 0 (Nat.succ_pos _)
        simp at hm
    | some m0 =>
      simp only [validateAccounts, List.length_cons, ih]
      constructor
      · intro h i hi
        cases i with
        | zero => exact ⟨m0, by simp⟩
        | succ j => simpa using h j (by omega)
      · intro h i hi
        simpa using h (i + 1) (by omega)

theorem validateAccounts_first_unset (s : SolanaGo.AccountMetaSlice) (k i : Nat)
    (hi : s[i]? = some none) (hlt : ∀ j, j < i → s[j]? ≠ some none) :
    validateAccounts s k = some (accountNotSet (k + i)) := by
  induction s generalizing k i with
  | nil => simp at hi
  | cons x rest ih =>
    cases i with
    | zero =>
      simp at hi
      subst hi
      simp [validateAccounts]
    | succ j =>
      cases x with
      | none => exact absurd (by simp) (hlt 0 (Nat.succ_pos _))
      | some m0 =>
        simp only [validateAccounts]
        have := ih (k + 1) j (by simpa using hi)
          (fun l hl => by simpa using hlt (l + 1) (by omega))
        rw [this]
        congr 2
        omega

theorem sideNotSet_ne_accountNotSet (i : Nat) : sideNotSet ≠ accountNotSet i := by
  intro h
  have := congrArg String.data h
  simp [sideNotSet, accountNotSet, String.data_append] at this

theorem orderIdNotSet_ne_accountNotSet (i : Nat) : orderIdNotSet ≠ accountNotSet i := by
  intro h
  have := congrArg String.data h
  simp [orderIdNotSet, accountNotSet, String.data_append] at this

theorem accountNotSet_inj (i j : Nat) (hi : i < 6) (hj : j < 6)
    (h : accountNotSet i = accountNotSet j) : i = j := by
  interval_cases i <;> interval_cases j <;> first | rfl | (exact absurd h (by decide))

/-- C1: on a builder with six account slots, `Validate` returns no error if and
only if Side is set, OrderId is set and each of the slots 0..5 holds a
reference; so `Validate` succeeds on every fully populated builder. -/
theorem validate_ok_iff (c : CancelOrder) (hlen : c.AccountMetaSlice.length = 6) :
    c.Validate = none ↔
      (c.Side ≠ none ∧ c.OrderId ≠ none ∧ ∀ i, i < 6 → c.slotSet i) := by
  unfold Validate slotSet
  by_cases hs : c.Side = none
  · simp [hs]
  · by_cases ho : c.OrderId = none
    · simp [hs, ho]
    · simp only [hs, ho, if_false, ne_eq, not_false_eq_true, true_and]
      rw [validateAccounts_eq_none, hlen]

/-- The fully populated sample builder has six slots, so the equivalence applies to it. -/
theorem validate_ok_iff_witness :
    fullBuilder.AccountMetaSlice.length = 6 ∧
      (fullBuilder.Validate = none ↔
        (fullBuilder.Side ≠ none ∧ fullBuilder.OrderId ≠ none ∧
          ∀ i, i < 6 → fullBuilder.slotSet i)) :=
  ⟨rfl, validate_ok_iff fullBuilder rfl⟩

/-- C2: on a builder in which exactly one item among Side, OrderId and the six
account slots is missing, `Validate` fails with the message of that item: the Side message, the
OrderId message, or the message carrying the index of the one nil slot; these
messages are pairwise different, and with only the owner slot nil the message
names index 4. -/
theorem validate_single_omission (c : CancelOrder) :
    (c.Side = none → c.OrderId ≠ none → (∀ i, i < 6 → c.slotSet i) →
        c.Validate = some "CancelOrder.Side parameter is not set") ∧
    (c.Side ≠ none → c.OrderId = none → (∀ i, i < 6 → c.slotSet i) →
        c.Validate = some "CancelOrder.OrderId parameter is not set") ∧
    (∀ i, i < 6 → c.Side ≠ none → c.OrderId ≠ none →
        c.AccountMetaSlice[i]? = some none → (∀ j, j < 6 → j ≠ i → c.slotSet j) →
        c.Validate = some (accountNotSet i)) ∧
    (c.Side ≠ none → c.OrderId ≠ none →
        c.AccountMetaSlice[4]? = some none → (∀ j, j < 6 → j ≠ 4 → c.slotSet j) →
        c.Validate = some "CancelOrder.AccountMetaSlice[4] is not set") ∧
    ("CancelOrder.Side parameter is not set" ≠ "CancelOrder.OrderId parameter is not set" ∧
      (∀ i, "CancelOrder.Side parameter is not set" ≠ accountNotSet i) ∧
      (∀ i, "CancelOrder.OrderId parameter is not set" ≠ accountNotSet i) ∧
      (∀ i j, i < 6 → j < 6 → accountNotSet i = accountNotSet j → i = j)) := by
  have hslot : ∀ i, i < 6 → c.Side ≠ none → c.OrderId ≠ none →
      c.AccountMetaSlice[i]? = some none → (∀ j, j < 6 → j ≠ i → c.slotSet j) →
      c.Validate = some (accountNotSet i) := by
    intro i _ hs ho hi hrest
    unfold Validate
    rw [if_neg hs, if_neg ho]
    have := validateAccounts_first_unset c.AccountMetaSlice 0 i hi (by
      intro j hj hnil
      obtain ⟨m, hm⟩ := hrest j (by omega) (by omega)
      rw [hm] at hnil
      cases hnil)
    simpa using this
  refine ⟨?_, ?_, hslot, ?_, ?_⟩
  · intro hs _ _
    simp [Validate, hs, sideNotSet]
  · intro hs ho _
    simp [Validate, hs, ho, orderIdNotSet]
  · intro hs ho h4 hrest
    exact hslot 4 (by decide) hs ho h4 hrest
  · exact ⟨by decide, sideNotSet_ne_accountNotSet, orderIdNotSet_ne_accountNotSet,
      fun i j hi hj h => accountNotSet_inj i j hi hj h⟩

/-- The sample builder with only the owner slot nil fails with the message for index 4. -/
theorem validate_single_omission_witness :
    ownerUnsetBuilder.AccountMetaSlice.length = 6 ∧
      ownerUnsetBuilder.Validate = some "CancelOrder.AccountMetaSlice[4] is not set" :=
  ⟨rfl, (validate_single_omission ownerUnsetBuilder).2.2.2.1
    (by decide) (by decide) rfl (by
      intro j hj hne
      unfold slotSet
      interval_cases j
      · exact ⟨_, rfl⟩
      · exact ⟨_, rfl⟩
      · exact ⟨_, rfl⟩
      · exact ⟨_, rfl⟩
      · exact absurd rfl hne
      · exact ⟨_, rfl⟩)⟩

/-- C3: `Validate` reports in a fixed priority order, whatever else is missing:
the Side message when Side is nil; otherwise the OrderId message when OrderId is
nil; otherwise the message with the smallest index whose slot is nil. With
Side nil the error is never an account message. -/
theorem validate_priority (c : CancelOrder) :
    (c.Side = none → c.Validate = some "CancelOrder.Side parameter is not set") ∧
    (c.Side ≠ none → c.OrderId = none →
        c.Validate = some "CancelOrder.OrderId parameter is not set") ∧
    (c.Side ≠ none → c.OrderId ≠ none →
        ∀ i, c.AccountMetaSlice[i]? = some none →
          (∀ j, j < i → c.AccountMetaSlice[j]? ≠ some none) →
          c.Validate = some (accountNotSet i)) ∧
    (c.Side = none → ∀ i, c.Validate ≠ some (accountNotSet i)) := by
  refine ⟨?_, ?_, ?_, ?_⟩
  · intro hs
    simp [Validate, hs, sideNotSet]
  · intro hs ho
    simp [Validate, hs, ho, orderIdNotSet]
  · intro hs ho i hi hlt
    unfold Validate
    rw [if_neg hs, if_neg ho]
    simpa using validateAccounts_first_unset c.AccountMetaSlice 0 i hi hlt
  · intro hs i h
    have hv : c.Validate = some sideNotSet := by simp [Validate, hs]
    rw [hv] at h
    exact sideNotSet_ne_accountNotSet i (Option.some.inj h)

/-- With Side and the market slot both nil the reported error is the Side message. -/
theorem validate_priority_witness :
    sideAndMarketUnsetBuilder.Side = none ∧
      sideAndMarketUnsetBuilder.AccountMetaSlice[0]? = some none ∧
      sideAndMarketUnsetBuilder.Validate = some "CancelOrder.Side parameter is not set" ∧
      sideAndMarketUnsetBuilder.Validate ≠ some (accountNotSet 0) :=
  ⟨rfl, rfl, (validate_priority sideAndMarketUnsetBuilder).1 rfl,
    (validate_priority sideAndMarketUnsetBuilder).2.2.2 rfl 0⟩

/-- C4: `ValidateAndBuild` returns the error of `Validate` and no instruction
when `Validate` fails, and the result of `Build` and no error when `Validate`
succeeds; it yields an instruction exactly when `Validate` succeeds, and an
instruction it yields has Side, OrderId and every slot of its slice set. -/
theorem validateAndBuild_spec (K : Fin (2 ^ 32)) (c : CancelOrder) :
    (∀ err, c.Validate = some err → c.ValidateAndBuild K = (none, some err)) ∧
    (c.Validate = none → c.ValidateAndBuild K = (some (c.Build K), none)) ∧
    ((c.ValidateAndBuild K).1.isSome = true ↔ c.Validate = none) ∧
    (∀ inst, (c.ValidateAndBuild K).1 = some inst →
        inst = c.Build K ∧ (c.ValidateAndBuild K).2 = none ∧
        inst.BaseVariant.Impl.Side ≠ none ∧ inst.BaseVariant.Impl.OrderId ≠ none ∧
        ∀ i, i < inst.BaseVariant.Impl.AccountMetaSlice.length →
          inst.BaseVariant.Impl.slotSet i) := by
  unfold ValidateAndBuild
  cases hv : c.Validate with
  | some err => simp
  | none =>
    simp only [reduceCtorEq, false_implies, implies_true, true_implies, Option.isSome_some,
      true_and, Option.some.injEq, forall_eq', Build]
    unfold Validate at hv
    by_cases hs : c.Side = none
    · simp [hs] at hv
    · by_cases ho : c.OrderId = none
      · simp [hs, ho] at hv
      · simp only [hs, ho, if_false] at hv
        exact ⟨hs, ho, (validateAccounts_eq_none _ _).1 hv⟩

/-- The full sample builder builds; the one without owner returns the validation error. -/
theorem validateAndBuild_spec_witness :
    fullBuilder.Validate = none ∧
      fullBuilder.ValidateAndBuild 7 = (some (fullBuilder.Build 7), none) ∧
      ownerUnsetBuilder.ValidateAndBuild 7 =
        (none, some "CancelOrder.AccountMetaSlice[4] is not set") :=
  ⟨by decide, (validateAndBuild_spec 7 fullBuilder).2.1 (by decide),
    (validateAndBuild_spec 7 ownerUnsetBuilder).1 _ (by decide)⟩

/-! ## Facts about the account setters and getters -/

theorem sliceSet_map_ok (c : CancelOrder) (i : Nat) (m : AccountMeta)
    (h : i < c.AccountMetaSlice.length) :
    (sliceSet c.AccountMetaSlice i (some m)).map
        (fun s => { c with AccountMetaSlice := s }) =
      Except.ok { c with AccountMetaSlice := c.AccountMetaSlice.set i (some m) } := by
  simp [sliceSet, h, Except.map]

theorem writesOnlySlot_set (c : CancelOrder) (i : Nat) (m : AccountMeta)
    (h : i < c.AccountMetaSlice.length) :
    writesOnlySlot c { c with AccountMetaSlice := c.AccountMetaSlice.set i (some m) } i m := by
  refine ⟨rfl, rfl, by simp, by simp [List.getElem?_set, h], ?_⟩
  intro j hj
  simp [List.getElem?_set, Ne.symm hj]

theorem sliceGet_set (c : CancelOrder) (i : Nat) (m : AccountMeta)
    (h : i < c.AccountMetaSlice.length) :
    sliceGet (c.AccountMetaSlice.set i (some m)) i = Except.ok (some m) := by
  simp [sliceGet, List.getElem?_set, h]

/-- C5: on a builder with six account slots and for every address `a`,
`SetOwnerAccount a` leaves slot 4 holding `a` with writable = true and
signer = true, and each of the five other account setters leaves its slot
holding `a` with writable = true and signer = false. -/
theorem account_flags (c : CancelOrder) (a : PublicKey)
    (hlen : c.AccountMetaSlice.length = 6) :
    (∃ c1, c.SetOwnerAccount a = Except.ok c1 ∧ c1.AccountMetaSlice[4]? =
        some (some { PublicKey := a, IsWritable := true, IsSigner := true })) ∧
    (∃ c1, c.SetMarketAccount a = Except.ok c1 ∧ c1.AccountMetaSlice[0]? =
        some (some { PublicKey := a, IsWritable := true, IsSigner := false })) ∧
    (∃ c1, c.SetBidsAccount a = Except.ok c1 ∧ c1.AccountMetaSlice[1]? =
        some (some { PublicKey := a, IsWritable := true, IsSigner := false })) ∧
    (∃ c1, c.SetAsksAccount a = Except.ok c1 ∧ c1.AccountMetaSlice[2]? =
        some (some { PublicKey := a, IsWritable := true, IsSigner := false })) ∧
    (∃ c1, c.SetOpenOrdersAccount a = Except.ok c1 ∧ c1.AccountMetaSlice[3]? =
        some (some { PublicKey := a, IsWritable := true, IsSigner := false })) ∧
    (∃ c1, c.SetEventQueueAccount a = Except.ok c1 ∧ c1.AccountMetaSlice[5]? =
        some (some { PublicKey := a, IsWritable := true, IsSigner := false })) := by
  refine ⟨?_, ?_, ?_, ?_, ?_, ?_⟩
  · exact ⟨_, sliceSet_map_ok c 4 _ (by omega), by
      simp [List.getElem?_set, hlen, Meta, AccountMeta.WRITE, AccountMeta.SIGNER]⟩
  · exact ⟨_, sliceSet_map_ok c 0 _ (by omega), by
      simp [List.getElem?_set, hlen, Meta, AccountMeta.WRITE]⟩
  · exact ⟨_, sliceSet_map_ok c 1 _ (by omega), by
      simp [List.getElem?_set, hlen, Meta, AccountMeta.WRITE]⟩
  · exact ⟨_, sliceSet_map_ok c 2 _ (by omega), by
      simp [List.getElem?_set, hlen, Meta, AccountMeta.WRITE]⟩
  · exact ⟨_, sliceSet_map_ok c 3 _ (by omega), by
      simp [List.getElem?_set, hlen, Meta, AccountMeta.WRITE]⟩
  · exact ⟨_, sliceSet_map_ok c 5 _ (by omega), by
      simp [List.getElem?_set, hlen, Meta, AccountMeta.WRITE]⟩

/-- Setting the owner on a fresh builder stores a writable signer reference in slot 4. -/
theorem account_flags_witness :
    NewCancelOrderInstructionBuilder.AccountMetaSlice.length = 6 ∧
      ∃ c1, NewCancelOrderInstructionBuilder.SetOwnerAccount (sampleKey 14) = Except.ok c1 ∧
        c1.AccountMetaSlice[4]? =
          some (some { PublicKey := sampleKey 14, IsWritable := true, IsSigner := true }) :=
  ⟨rfl, (account_flags NewCancelOrderInstructionBuilder (sampleKey 14) rfl).1⟩

/-- C6: on a builder with six slots each account setter succeeds and writes
exactly its own slot (market 0, bids 1, asks 2, open orders 3, owner 4, event
queue 5), whatever the slot held before: Side, OrderId, the length and the
other five slots are unchanged, and the matching getter then returns the
reference just written; on a fresh builder every getter returns nil. -/
theorem account_setters_frame (c : CancelOrder) (a : PublicKey)
    (hlen : c.AccountMetaSlice.length = 6) :
    (∃ c1, c.SetMarketAccount a = Except.ok c1 ∧
        writesOnlySlot c c1 0 (Meta a).WRITE ∧
        c1.MarketAccount = Except.ok (some (Meta a).WRITE)) ∧
    (∃ c1, c.SetBidsAccount a = Except.ok c1 ∧
        writesOnlySlot c c1 1 (Meta a).WRITE ∧
        c1.BidsAccount = Except.ok (some (Meta a).WRITE)) ∧
    (∃ c1, c.SetAsksAccount a = Except.ok c1 ∧
        writesOnlySlot c c1 2 (Meta a).WRITE ∧
        c1.AsksAccount = Except.ok (some (Meta a).WRITE)) ∧
    (∃ c1, c.SetOpenOrdersAccount a = Except.ok c1 ∧
        writesOnlySlot c c1 3 (Meta a).WRITE ∧
        c1.OpenOrdersAccount = Except.ok (some (Meta a).WRITE)) ∧
    (∃ c1, c.SetOwnerAccount a = Except.ok c1 ∧
        writesOnlySlot c c1 4 (Meta a).WRITE.SIGNER ∧
        c1.OwnerAccount = Except.ok (some (Meta a).WRITE.SIGNER)) ∧
    (∃ c1, c.SetEventQueueAccount a = Except.ok c1 ∧
        writesOnlySlot c c1 5 (Meta a).WRITE ∧
        c1.EventQueueAccount = Except.ok (some (Meta a).WRITE)) ∧
    (NewCancelOrderInstructionBuilder.MarketAccount = Except.ok none ∧
      NewCancelOrderInstructionBuilder.BidsAccount = Except.ok none ∧
      NewCancelOrderInstructionBuilder.AsksAccount = Except.ok none ∧
      NewCancelOrderInstructionBuilder.OpenOrdersAccount = Except.ok none ∧
      NewCancelOrderInstructionBuilder.OwnerAccount = Except.ok none ∧
      NewCancelOrderInstructionBuilder.EventQueueAccount = Except.ok none) := by
  refine ⟨?_, ?_, ?_, ?_, ?_, ?_, ⟨rfl, rfl, rfl, rfl, rfl, rfl⟩⟩
  · exact ⟨_, sliceSet_map_ok c 0 _ (by omega), writesOnlySlot_set c 0 _ (by omega),
      sliceGet_set c 0 _ (by omega)⟩
  · exact ⟨_, sliceSet_map_ok c 1 _ (by omega), writesOnlySlot_set c 1 _ (by omega),
      sliceGet_set c 1 _ (by omega)⟩
  · exact ⟨_, sliceSet_map_ok c 2 _ (by omega), writesOnlySlot_set c 2 _ (by omega),
      sliceGet_set c 2 _ (by omega)⟩
  · exact ⟨_, sliceSet_map_ok c 3 _ (by omega), writesOnlySlot_set c 3 _ (by omega),
      sliceGet_set c 3 _ (by omega)⟩
  · exact ⟨_, sliceSet_map_ok c 4 _ (by omega), writesOnlySlot_set c 4 _ (by omega),
      sliceGet_set c 4 _ (by omega)⟩
  · exact ⟨_, sliceSet_map_ok c 5 _ (by omega), writesOnlySlot_set c 5 _ (by omega),
      sliceGet_set c 5 _ (by omega)⟩

/-- Overwriting the bids slot of the full sample builder touches slot 1 only. -/
theorem account_setters_frame_witness :
    fullBuilder.AccountMetaSlice.length = 6 ∧
      ∃ c1, fullBuilder.SetBidsAccount (sampleKey 99) = Except.ok c1 ∧
        writesOnlySlot fullBuilder c1 1 (Meta (sampleKey 99)).WRITE ∧
        c1.BidsAccount = Except.ok (some (Meta (sampleKey 99)).WRITE) :=
  ⟨rfl, (account_setters_frame fullBuilder (sampleKey 99) rfl).2.1⟩

/-! ## Facts about the codec -/

theorem leBytes_length (n v : Nat) : (leBytes n v).length = n := by
  induction n generalizing v with
  | zero => rfl
  | succ k ih => simp [leBytes, ih]

theorem leValue_leBytes (n v : Nat) : leValue (leBytes n v) = v % 256 ^ n := by
  induction n generalizing v with
  | zero => simp [leBytes, leValue, Nat.mod_one]
  | succ k ih =>
    simp only [leBytes, leValue, ih]
    rw [pow_succ, Nat.mul_comm (256 ^ k) 256, Nat.mod_mul]

theorem leBytes_leValue (bs : List Byte) : leBytes bs.length (leValue bs) = bs := by
  induction bs with
  | nil => rfl
  | cons b rest ih =>
    simp only [List.length_cons, leBytes, leValue]
    have h1 : (b.val + 256 * leValue rest) % 256 = b.val := by
      have := b.isLt
      omega
    have h2 : (b.val + 256 * leValue rest) / 256 = leValue rest := by
      have := b.isLt
      omega
    rw [h2, ih]
    congr 1
    exact Fin.ext h1

theorem decodeSide_encode (s : SolanaGo.Side) (rest : List Byte) :
    Decoder.DecodeSide { data := leBytes 1 s.tag ++ rest } =
      ({ data := rest }, Except.ok s) := by
  cases s <;> simp [Decoder.DecodeSide, Decoder.ReadNBytes, leBytes, leValue, Side.tag, Side.ofTag]

theorem decodeUint128_encode (o : Uint128) (rest : List Byte) :
    Decoder.DecodeUint128 { data := leBytes 16 o.val ++ rest } =
      ({ data := rest }, Except.ok o) := by
  have hlen : (leBytes 16 o.val).length = 16 := leBytes_length 16 o.val
  have htake : (leBytes 16 o.val ++ rest).take 16 = leBytes 16 o.val := by
    exact List.take_left' hlen
  have hdrop : (leBytes 16 o.val ++ rest).drop 16 = rest := by
    exact List.drop_left' hlen
  have hval : leValue (leBytes 16 o.val) % 2 ^ 128 = o.val := by
    rw [leValue_leBytes]
    have := o.isLt
    have h256 : (256 : Nat) ^ 16 = 2 ^ 128 := by norm_num
    rw [h256, Nat.mod_mod, Nat.mod_eq_of_lt this]
  have hle : 16 ≤ (leBytes 16 o.val ++ rest).length := by
    rw [List.length_append, hlen]; omega
  simp only [Decoder.DecodeUint128, Decoder.ReadNBytes, if_pos hle, htake, hdrop, hval]

theorem marshal_set (c : CancelOrder) (s : SolanaGo.Side) (o : Uint128)
    (hs : c.Side = some s) (ho : c.OrderId = some o) (encoder : Encoder) :
    c.MarshalWithEncoder encoder =
      Except.ok ({ written := encoder.written ++ leBytes 1 s.tag ++ leBytes 16 o.val }, none) := by
  simp [MarshalWithEncoder, hs, ho, Encoder.EncodeSide, Encoder.EncodeUint128,
    Encoder.WriteBytes]

theorem unmarshal_encoded (c : CancelOrder) (s : SolanaGo.Side) (o : Uint128)
    (rest : List Byte) :
    c.UnmarshalWithDecoder { data := leBytes 1 s.tag ++ leBytes 16 o.val ++ rest } =
      ({ c with Side := some s, OrderId := some o }, { data := rest }, none) := by
  simp only [UnmarshalWithDecoder, List.append_assoc, decodeSide_encode, decodeUint128_encode]

theorem leValue_lt (bs : List Byte) : leValue bs < 256 ^ bs.length := by
  induction bs with
  | nil => simp [leValue]
  | cons b rest ih =>
    simp only [leValue, List.length_cons, pow_succ]
    have := b.isLt
    omega

theorem decodeSide_ok (d d1 : Decoder) (s : SolanaGo.Side)
    (h : d.DecodeSide = (d1, Except.ok s)) : d.data = leBytes 1 s.tag ++ d1.data := by
  obtain ⟨data⟩ := d
  cases data with
  | nil => simp [Decoder.DecodeSide, Decoder.ReadNBytes] at h
  | cons b rest =>
    have hb := b.isLt
    simp only [Decoder.DecodeSide, Decoder.ReadNBytes, List.length_cons,
      Nat.le_add_left, if_true, List.take_succ_cons, List.take_zero, List.drop_succ_cons,
      List.drop_zero, leValue, Nat.mul_zero, Nat.add_zero] at h
    cases htag : Side.ofTag b.val with
    | none => simp [htag] at h
    | some s1 =>
      simp only [htag, Prod.mk.injEq, Except.ok.injEq] at h
      obtain ⟨hd, hs⟩ := h
      subst hd hs
      have hbv : b.val = s1.tag := by
        unfold Side.ofTag at htag
        split at htag
        · cases htag; simp [Side.tag, *]
        · cases htag; simp [Side.tag, *]
        · cases htag
      simp only [leBytes, List.cons_append, List.nil_append, List.cons.injEq, and_true]
      apply Fin.ext
      simp only [← hbv]
      omega

theorem decodeUint128_ok (d d1 : Decoder) (o : Uint128)
    (h : d.DecodeUint128 = (d1, Except.ok o)) : d.data = leBytes 16 o.val ++ d1.data := by
  by_cases h16 : 16 ≤ d.data.length
  · simp only [Decoder.DecodeUint128, Decoder.ReadNBytes, if_pos h16, Prod.mk.injEq,
      Except.ok.injEq] at h
    obtain ⟨hd, ho⟩ := h
    subst hd ho
    have hlen : (d.data.take 16).length = 16 := by
      rw [List.length_take]; omega
    have hlt := leValue_lt (d.data.take 16)
    rw [hlen] at hlt
    have h256 : (256 : Nat) ^ 16 = 2 ^ 128 := by norm_num
    rw [h256] at hlt
    simp only [Nat.mod_eq_of_lt hlt]
    have := leBytes_leValue (d.data.take 16)
    rw [hlen] at this
    rw [this, List.take_append_drop]
  · simp [Decoder.DecodeUint128, Decoder.ReadNBytes, h16] at h

theorem unmarshal_ok (target c1 : CancelOrder) (bs rest : List Byte)
    (h : target.UnmarshalWithDecoder { data := bs } = (c1, { data := rest }, none)) :
    ∃ s o, c1 = { target with Side := some s, OrderId := some o } ∧
      bs = leBytes 1 s.tag ++ leBytes 16 o.val ++ rest := by
  unfold UnmarshalWithDecoder at h
  rcases hS : Decoder.DecodeSide { data := bs } with ⟨d1, rs⟩
  rw [hS] at h
  cases rs with
  | error e => simp at h
  | ok s =>
    rcases hO : Decoder.DecodeUint128 d1 with ⟨d2, ro⟩
    simp only [hO] at h
    cases ro with
    | error e => simp at h
    | ok o =>
      simp only [Prod.mk.injEq, and_true] at h
      obtain ⟨hc, hd⟩ := h
      subst hd
      refine ⟨s, o, hc.symm, ?_⟩
      have e1 := decodeSide_ok _ _ _ hS
      have e2 := decodeUint128_ok _ _ _ hO
      simp only at e1 e2
      rw [e1, e2, List.append_assoc]

/-! ## The wire format -/

/-- C7: for a built instruction whose Side and OrderId are set, the data payload
is exactly 21 bytes: bytes [0..4) are the discriminant `K` little-endian,
byte [4..5) is the Side tag, bytes [5..21) are OrderId little-endian;
`MarshalWithEncoder` appends the Side byte and then the OrderId bytes; decoding
the payload gives back the Side and the OrderId. With Side = Sell and
OrderId = 0x0102030405060708090A0B0C0D0E0F10 the payload is `K` in four bytes,
then 0x01, then 0x10, 0x0F, .., 0x01. -/
theorem data_layout (K : Fin (2 ^ 32)) (c : CancelOrder) (s : SolanaGo.Side) (o : Uint128)
    (hs : c.Side = some s) (ho : c.OrderId = some o) :
    ∃ data, (c.Build K).Data = Except.ok (data, none) ∧
      data.length = 21 ∧
      data.take 4 = leBytes 4 K.val ∧ leValue (data.take 4) = K.val ∧
      (data.drop 4).take 1 = leBytes 1 s.tag ∧ leValue ((data.drop 4).take 1) = s.tag ∧
      data.drop 5 = leBytes 16 o.val ∧ leValue (data.drop 5) = o.val ∧
      (∀ encoder : Encoder, c.MarshalWithEncoder encoder = Except.ok
        ({ written := encoder.written ++ leBytes 1 s.tag ++ leBytes 16 o.val }, none)) ∧
      (∃ inst, Instruction.Decode K data = (some inst, none) ∧
        inst.BaseVariant.Impl.Side = some s ∧ inst.BaseVariant.Impl.OrderId = some o) ∧
      (s = Side.Sell → o.val = 0x0102030405060708090A0B0C0D0E0F10 →
        data = leBytes 4 K.val ++ [0x01] ++
          [0x10, 0x0F, 0x0E, 0x0D, 0x0C, 0x0B, 0x0A, 0x09,
           0x08, 0x07, 0x06, 0x05, 0x04, 0x03, 0x02, 0x01]) := by
  have hA : (leBytes 4 K.val).length = 4 := leBytes_length 4 K.val
  have hB : (leBytes 1 s.tag).length = 1 := leBytes_length 1 s.tag
  have hC : (leBytes 16 o.val).length = 16 := leBytes_length 16 o.val
  have hK : leValue (leBytes 4 K.val) = K.val := by
    rw [leValue_leBytes]
    have := K.isLt
    have h256 : (256 : Nat) ^ 4 = 2 ^ 32 := by norm_num
    rw [h256]
    exact Nat.mod_eq_of_lt this
  have hT : leValue (leBytes 1 s.tag) = s.tag := by
    cases s <;> simp [leBytes, leValue, Side.tag]
  have hO : leValue (leBytes 16 o.val) = o.val := by
    rw [leValue_leBytes]
    have := o.isLt
    have h256 : (256 : Nat) ^ 16 = 2 ^ 128 := by norm_num
    rw [h256]
    exact Nat.mod_eq_of_lt this
  have htake4 : (leBytes 4 K.val ++ (leBytes 1 s.tag ++ leBytes 16 o.val)).take 4 =
      leBytes 4 K.val := List.take_left' hA
  have hdrop4 : (leBytes 4 K.val ++ (leBytes 1 s.tag ++ leBytes 16 o.val)).drop 4 =
      leBytes 1 s.tag ++ leBytes 16 o.val := List.drop_left' hA
  have hdrop5 : (leBytes 4 K.val ++ (leBytes 1 s.tag ++ leBytes 16 o.val)).drop 5 =
      leBytes 16 o.val := by
    have : (5 : Nat) = 4 + 1 := rfl
    rw [this, ← List.drop_drop, hdrop4]
    exact List.drop_left' hB
  refine ⟨leBytes 4 K.val ++ (leBytes 1 s.tag ++ leBytes 16 o.val), ?_, ?_, htake4, ?_, ?_, ?_,
    hdrop5, ?_, ?_, ?_, ?_⟩
  · simp [Instruction.Data, Instruction.MarshalWithEncoder, Build, Encoder.WriteBytes,
      NewBinEncoder, TypeIDFromUint32, marshal_set c s o hs ho]
  · simp [hA, hB, hC]
  · rw [htake4, hK]
  · rw [hdrop4]
    exact List.take_left' hB
  · rw [hdrop4, List.take_left' hB, hT]
  · rw [hdrop5, hO]
  · intro encoder
    exact marshal_set c s o hs ho encoder
  · have hle : 4 ≤ (leBytes 4 K.val ++ (leBytes 1 s.tag ++ leBytes 16 o.val)).length := by
      simp [hA]
    have hun := unmarshal_encoded
      { Side := none, OrderId := none, AccountMetaSlice := [] } s o []
    simp only [List.append_nil] at hun
    simp only [Instruction.Decode, Decoder.ReadNBytes, if_pos hle, htake4, hdrop4, hK,
      if_true, hun]
    exact ⟨_, rfl, rfl, rfl⟩
  · intro hsell hval
    subst hsell
    rw [hval]
    rfl

/-- The payload of the sample instruction with discriminant 7, byte by byte. -/
theorem data_layout_witness :
    fullBuilder.Side = some Side.Sell ∧ fullBuilder.OrderId = some sampleOrderId ∧
      ∃ data, (fullBuilder.Build 7).Data = Except.ok (data, none) ∧ data.length = 21 ∧
        data = [0x07, 0x00, 0x00, 0x00, 0x01,
          0x10, 0x0F, 0x0E, 0x0D, 0x0C, 0x0B, 0x0A, 0x09,
          0x08, 0x07, 0x06, 0x05, 0x04, 0x03, 0x02, 0x01] :=
  ⟨rfl, rfl,
    match data_layout 7 fullBuilder Side.Sell sampleOrderId rfl rfl with
    | ⟨data, h1, h2, _, _, _, _, _, _, _, _, h3⟩ => ⟨data, h1, h2, h3 rfl rfl⟩⟩

/-- C8: for every instruction whose Side and OrderId are both set,
`MarshalWithEncoder` succeeds, and `UnmarshalWithDecoder` run on the bytes it
produced succeeds, consumes all of them, and yields the original Side and
the original OrderId. -/
theorem unmarshal_marshal (c : CancelOrder) (s : SolanaGo.Side) (o : Uint128)
    (hs : c.Side = some s) (ho : c.OrderId = some o)
    (encoder : Encoder) (target : CancelOrder) :
    ∃ bytes, c.MarshalWithEncoder encoder =
        Except.ok ({ written := encoder.written ++ bytes }, none) ∧
      ∃ c1, target.UnmarshalWithDecoder { data := bytes } = (c1, { data := [] }, none) ∧
        c1.Side = c.Side ∧ c1.OrderId = c.OrderId ∧
        c1.Side = some s ∧ c1.OrderId = some o := by
  refine ⟨leBytes 1 s.tag ++ leBytes 16 o.val, ?_, ?_⟩
  · rw [marshal_set c s o hs ho encoder, List.append_assoc]
  · have hun := unmarshal_encoded target s o []
    simp only [List.append_nil] at hun
    exact ⟨_, hun, hs.symm, ho.symm, rfl, rfl⟩

/-- Encoding the full sample builder and decoding the bytes gives back its parameters. -/
theorem unmarshal_marshal_witness :
    fullBuilder.Side = some Side.Sell ∧ fullBuilder.OrderId = some sampleOrderId ∧
      ∃ bytes, fullBuilder.MarshalWithEncoder NewBinEncoder =
          Except.ok ({ written := NewBinEncoder.written ++ bytes }, none) ∧
        ∃ c1, NewCancelOrderInstructionBuilder.UnmarshalWithDecoder { data := bytes } =
            (c1, { data := [] }, none) ∧
          c1.Side = fullBuilder.Side ∧ c1.OrderId = fullBuilder.OrderId :=
  ⟨rfl, rfl,
    match unmarshal_marshal fullBuilder Side.Sell sampleOrderId rfl rfl NewBinEncoder
        NewCancelOrderInstructionBuilder with
    | ⟨bytes, h1, c1, h2, h3, h4, _⟩ => ⟨bytes, h1, c1, h2, h3, h4⟩⟩

/-- C9: whenever `UnmarshalWithDecoder` decodes a byte sequence successfully,
`MarshalWithEncoder` on the decoded instruction succeeds and writes exactly
the 17 bytes that were consumed; so for a byte sequence of the fixed shape
(nothing left over) re-encoding reproduces the decoded bytes. -/
theorem marshal_unmarshal (target c1 : CancelOrder) (bs rest : List Byte)
    (h : target.UnmarshalWithDecoder { data := bs } = (c1, { data := rest }, none)) :
    ∃ consumed, c1.MarshalWithEncoder NewBinEncoder =
        Except.ok ({ written := consumed }, none) ∧
      consumed ++ rest = bs ∧ consumed.length = 17 ∧
      (rest = [] → c1.MarshalWithEncoder NewBinEncoder =
        Except.ok ({ written := bs }, none)) := by
  obtain ⟨s, o, hc, hbs⟩ := unmarshal_ok target c1 bs rest h
  have hm := marshal_set c1 s o (by rw [hc]) (by rw [hc]) NewBinEncoder
  simp only [NewBinEncoder, List.nil_append] at hm
  refine ⟨leBytes 1 s.tag ++ leBytes 16 o.val, ?_, hbs.symm, ?_, ?_⟩
  · simpa [NewBinEncoder] using hm
  · simp [leBytes_length]
  · intro hrest
    subst hrest
    simp only [List.append_nil] at hbs
    rw [hbs]
    simpa [NewBinEncoder] using hm

/-- Decoding the 17 sample bytes and encoding the result gives the same 17 bytes. -/
theorem marshal_unmarshal_witness :
    NewCancelOrderInstructionBuilder.UnmarshalWithDecoder
        { data := [0x01, 0x10, 0x0F, 0x0E, 0x0D, 0x0C, 0x0B, 0x0A, 0x09,
            0x08, 0x07, 0x06, 0x05, 0x04, 0x03, 0x02, 0x01] } =
      ({ Side := some Side.Sell, OrderId := some sampleOrderId,
         AccountMetaSlice := List.replicate 6 none }, { data := [] }, none) ∧
      CancelOrder.MarshalWithEncoder
        { Side := some Side.Sell, OrderId := some sampleOrderId,
          AccountMetaSlice := List.replicate 6 none } NewBinEncoder =
        Except.ok ({ written := [0x01, 0x10, 0x0F, 0x0E, 0x0D, 0x0C, 0x0B, 0x0A, 0x09,
            0x08, 0x07, 0x06, 0x05, 0x04, 0x03, 0x02, 0x01] }, none) :=
  ⟨rfl,
    match marshal_unmarshal NewCancelOrderInstructionBuilder _ _ [] rfl with
    | ⟨_, _, _, _, h4⟩ => h4 rfl⟩

/-- C10: `Build` is a total function of the builder state: for every builder,
also with Side, OrderId or slots nil, the envelope it returns has as type id
the constant `K` as four little-endian bytes, the same for every builder, and
its payload is the builder's Side, OrderId and account slice as they are. -/
theorem build_total (K : Fin (2 ^ 32)) (c : CancelOrder) :
    (c.Build K).BaseVariant.TypeID = TypeIDFromUint32 K ∧
      (c.Build K).BaseVariant.TypeID.bytes = leBytes 4 K.val ∧
      (c.Build K).BaseVariant.TypeID.bytes.length = 4 ∧
      (c.Build K).BaseVariant.TypeID.Uint32 = K.val ∧
      (∀ c2 : CancelOrder, (c2.Build K).BaseVariant.TypeID = (c.Build K).BaseVariant.TypeID) ∧
      (c.Build K).BaseVariant.Impl = c ∧
      (c.Build K).BaseVariant.Impl.Side = c.Side ∧
      (c.Build K).BaseVariant.Impl.OrderId = c.OrderId ∧
      (c.Build K).BaseVariant.Impl.AccountMetaSlice = c.AccountMetaSlice ∧
      (NewCancelOrderInstructionBuilder.Build K).BaseVariant.Impl.Side = none ∧
      NewCancelOrderInstructionBuilder.Validate ≠ none := by
  refine ⟨rfl, rfl, leBytes_length 4 K.val, ?_, fun _ => rfl, rfl, rfl, rfl, rfl, rfl, ?_⟩
  · simp only [Build, TypeID.Uint32, TypeIDFromUint32]
    rw [leValue_leBytes]
    have := K.isLt
    have h256 : (256 : Nat) ^ 4 = 2 ^ 32 := by norm_num
    rw [h256]
    exact Nat.mod_eq_of_lt this
  · simp [Validate, NewCancelOrderInstructionBuilder]

/-! ## Encoding without validation -/

theorem marshal_side_nil (c : CancelOrder) (encoder : Encoder) (hs : c.Side = none) :
    c.MarshalWithEncoder encoder = Except.error Panic.nilDereference := by
  simp [MarshalWithEncoder, hs]

theorem marshal_orderId_nil (c : CancelOrder) (encoder : Encoder) (ho : c.OrderId = none) :
    c.MarshalWithEncoder encoder = Except.error Panic.nilDereference := by
  cases hs : c.Side with
  | none => exact marshal_side_nil c encoder hs
  | some s => simp [MarshalWithEncoder, hs, ho, Encoder.EncodeSide, Encoder.WriteBytes]

/-- C11, as the code has it: `MarshalWithEncoder` on the parameters of a built
instruction returns bytes and no error exactly when Side and OrderId are both
set; when Side or OrderId is nil it dereferences the nil pointer and panics,
whatever the account slots hold. -/
theorem marshal_returns_iff (K : Fin (2 ^ 32)) (c : CancelOrder) (encoder : Encoder) :
    ((∃ out, (c.Build K).BaseVariant.Impl.MarshalWithEncoder encoder = Except.ok (out, none)) ↔
        (c.Side ≠ none ∧ c.OrderId ≠ none)) ∧
      ((c.Build K).BaseVariant.Impl.MarshalWithEncoder encoder =
          Except.error Panic.nilDereference ↔
        (c.Side = none ∨ c.OrderId = none)) := by
  have hb : (c.Build K).BaseVariant.Impl = c := rfl
  rw [hb]
  cases hs : c.Side with
  | none => simp [marshal_side_nil c encoder hs]
  | some s =>
    cases ho : c.OrderId with
    | none => simp [marshal_orderId_nil c encoder ho]
    | some o => simp [marshal_set c s o hs ho encoder]

/-- C11, the claim as stated fails: encoding the parameters of the instruction
built from a fresh builder, whose Side is nil, panics on the nil dereference. -/
theorem marshal_unset_panics :
    (NewCancelOrderInstructionBuilder.Build 7).BaseVariant.Impl.MarshalWithEncoder NewBinEncoder =
        Except.error Panic.nilDereference ∧
      ((NewCancelOrderInstructionBuilder.SetSide Side.Sell).Build 7).BaseVariant.Impl.MarshalWithEncoder
          NewBinEncoder = Except.error Panic.nilDereference :=
  ⟨rfl, rfl⟩

/-- What `NewCancelOrderInstruction` stores, for all arguments: the market
address in slots 0, 1 and 2, the open orders address in slot 3 and the owner
address in slots 4 and 5. -/
theorem newCancelOrderInstruction_eq (side : SolanaGo.Side) (orderId : Uint128)
    (marketAccount bidsAccount asksAccount openOrdersAccount ownerAccount
      eventQeueueAccount : PublicKey) :
    NewCancelOrderInstruction side orderId marketAccount bidsAccount asksAccount
        openOrdersAccount ownerAccount eventQeueueAccount =
      Except.ok
        { Side := some side
          OrderId := some orderId
          AccountMetaSlice :=
            [some (Meta marketAccount).WRITE, some (Meta marketAccount).WRITE,
             some (Meta marketAccount).WRITE, some (Meta openOrdersAccount).WRITE,
             some (Meta ownerAccount).WRITE.SIGNER, some (Meta ownerAccount).WRITE] } :=
  rfl

/-- C13, the code at six different addresses: the builder returned by
`NewCancelOrderInstruction` holds the market address in the bids and asks
slots and the owner address in the event queue slot, not the addresses passed
for those roles. -/
theorem newCancelOrderInstruction_aliases :
    ∃ c, NewCancelOrderInstruction Side.Sell sampleOrderId (sampleKey 10) (sampleKey 11)
        (sampleKey 12) (sampleKey 13) (sampleKey 14) (sampleKey 15) = Except.ok c ∧
      c.BidsAccount = Except.ok (some (Meta (sampleKey 10)).WRITE) ∧
      c.BidsAccount ≠ Except.ok (some (Meta (sampleKey 11)).WRITE) ∧
      c.AsksAccount = Except.ok (some (Meta (sampleKey 10)).WRITE) ∧
      c.AsksAccount ≠ Except.ok (some (Meta (sampleKey 12)).WRITE) ∧
      c.EventQueueAccount = Except.ok (some (Meta (sampleKey 14)).WRITE) ∧
      c.EventQueueAccount ≠ Except.ok (some (Meta (sampleKey 15)).WRITE) ∧
      c.MarketAccount = Except.ok (some (Meta (sampleKey 10)).WRITE) ∧
      c.OpenOrdersAccount = Except.ok (some (Meta (sampleKey 13)).WRITE) ∧
      c.OwnerAccount = Except.ok (some (Meta (sampleKey 14)).WRITE.SIGNER) ∧
      c.Side = some Side.Sell ∧ c.OrderId = some sampleOrderId :=
  ⟨_, rfl, rfl, fun h => absurd (Except.ok.inj h) (by decide),
    rfl, fun h => absurd (Except.ok.inj h) (by decide),
    rfl, fun h => absurd (Except.ok.inj h) (by decide), rfl, rfl, rfl, rfl, rfl⟩

/-- The fully populated sample builder encodes without a panic. -/
theorem marshal_returns_iff_witness :
    ∃ out, (fullBuilder.Build 7).BaseVariant.Impl.MarshalWithEncoder NewBinEncoder =
      Except.ok (out, none) :=
  (marshal_returns_iff 7 fullBuilder NewBinEncoder).1.2 ⟨by decide, by decide⟩

/-- C14: two instructions with the same Side and the same OrderId give the same
result of `MarshalWithEncoder`, byte for byte, whatever their account slices
hold; replacing the account slice never changes the encoding. -/
theorem marshal_ignores_accounts (c1 c2 : CancelOrder) (encoder : Encoder)
    (hs : c1.Side = c2.Side) (ho : c1.OrderId = c2.OrderId) :
    c1.MarshalWithEncoder encoder = c2.MarshalWithEncoder encoder ∧
      (∀ slice : SolanaGo.AccountMetaSlice,
        CancelOrder.MarshalWithEncoder { c1 with AccountMetaSlice := slice } encoder =
          c2.MarshalWithEncoder encoder) := by
  constructor
  · simp only [MarshalWithEncoder, hs, ho]
  · intro slice
    simp only [MarshalWithEncoder, hs, ho]

/-- The full sample builder and the one without the owner slot encode to the same
17 bytes. -/
theorem marshal_ignores_accounts_witness :
    fullBuilder.AccountMetaSlice ≠ ownerUnsetBuilder.AccountMetaSlice ∧
      fullBuilder.MarshalWithEncoder NewBinEncoder =
        ownerUnsetBuilder.MarshalWithEncoder NewBinEncoder ∧
      ownerUnsetBuilder.MarshalWithEncoder NewBinEncoder =
        Except.ok ({ written := [0x01, 0x10, 0x0F, 0x0E, 0x0D, 0x0C, 0x0B, 0x0A, 0x09,
            0x08, 0x07, 0x06, 0x05, 0x04, 0x03, 0x02, 0x01] }, none) :=
  ⟨by decide, (marshal_ignores_accounts fullBuilder ownerUnsetBuilder NewBinEncoder rfl rfl).1,
    rfl⟩

theorem unmarshal_accounts (c : CancelOrder) (d : Decoder) :
    (c.UnmarshalWithDecoder d).1.AccountMetaSlice = c.AccountMetaSlice := by
  unfold UnmarshalWithDecoder
  rcases hS : d.DecodeSide with ⟨d1, rs⟩
  cases rs with
  | error e => rfl
  | ok s =>
    rcases hO : d1.DecodeUint128 with ⟨d2, ro⟩
    cases ro with
    | error e => simp only [hO]
    | ok o => simp only [hO]

/-- C15: for every byte sequence shorter than the 17 bytes of the parameter
layout `UnmarshalWithDecoder` returns an error; when decoding Side fails, that
error is returned with OrderId left as it was and no further byte consumed;
and decoding never changes the account slots, whatever the input. -/
theorem unmarshal_truncated (c : CancelOrder) (bs : List Byte) (hlen : bs.length < 17) :
    (∃ c1 d1 err, c.UnmarshalWithDecoder { data := bs } = (c1, d1, some err) ∧
        c1.AccountMetaSlice = c.AccountMetaSlice) ∧
      (∀ d1 err, Decoder.DecodeSide { data := bs } = (d1, Except.error err) →
        c.UnmarshalWithDecoder { data := bs } = (c, d1, some err)) ∧
      (∀ input : List Byte,
        (c.UnmarshalWithDecoder { data := input }).1.AccountMetaSlice = c.AccountMetaSlice) := by
  refine ⟨?_, ?_, fun input => unmarshal_accounts c _⟩
  · rcases hS : Decoder.DecodeSide { data := bs } with ⟨d1, rs⟩
    cases rs with
    | error e =>
      exact ⟨c, d1, e, by simp only [UnmarshalWithDecoder, hS], rfl⟩
    | ok s =>
      have e1 := decodeSide_ok _ _ _ hS
      simp only at e1
      have hl : d1.data.length < 16 := by
        have := congrArg List.length e1
        rw [List.length_append, leBytes_length] at this
        omega
      have hO : d1.DecodeUint128 = (d1, Except.error "unexpected end of input") := by
        simp [Decoder.DecodeUint128, Decoder.ReadNBytes, Nat.not_le.2 hl]
      exact ⟨{ c with Side := some s }, d1, "unexpected end of input",
        by simp only [UnmarshalWithDecoder, hS, hO], rfl⟩
  · intro d1 err hS
    simp only [UnmarshalWithDecoder, hS]

/-- Five bytes, cut inside the OrderId field, are rejected and the account slots
of the receiver stay as they were. -/
theorem unmarshal_truncated_witness :
    ([0x01, 0x10, 0x0F, 0x0E, 0x0D] : List Byte).length < 17 ∧
      ∃ c1 d1 err, fullBuilder.UnmarshalWithDecoder { data := [0x01, 0x10, 0x0F, 0x0E, 0x0D] } =
          (c1, d1, some err) ∧ c1.AccountMetaSlice = fullBuilder.AccountMetaSlice :=
  ⟨by decide, (unmarshal_truncated fullBuilder [0x01, 0x10, 0x0F, 0x0E, 0x0D] (by decide)).1⟩

/-! ## Reachable builders -/

theorem validateAccounts_message (s : SolanaGo.AccountMetaSlice) (k : Nat) (e : String)
    (h : validateAccounts s k = some e) : ∃ i, e = accountNotSet i := by
  induction s generalizing k with
  | nil => simp [validateAccounts] at h
  | cons x rest ih =>
    cases x with
    | none =>
      simp only [validateAccounts, Option.some.injEq] at h
      exact ⟨k, h.symm⟩
    | some m => exact ih (k + 1) (by simpa [validateAccounts] using h)

theorem setterCall_run_length (call : SetterCall) (c : CancelOrder)
    (hlen : c.AccountMetaSlice.length = 6) :
    ∃ c1, call.run c = Except.ok c1 ∧ c1.AccountMetaSlice.length = 6 := by
  cases call with
  | SetSide s => exact ⟨_, rfl, hlen⟩
  | SetOrderId o => exact ⟨_, rfl, hlen⟩
  | SetMarketAccount a => exact ⟨_, sliceSet_map_ok c 0 _ (by omega), by simpa using hlen⟩
  | SetBidsAccount a => exact ⟨_, sliceSet_map_ok c 1 _ (by omega), by simpa using hlen⟩
  | SetAsksAccount a => exact ⟨_, sliceSet_map_ok c 2 _ (by omega), by simpa using hlen⟩
  | SetOpenOrdersAccount a => exact ⟨_, sliceSet_map_ok c 3 _ (by omega), by simpa using hlen⟩
  | SetOwnerAccount a => exact ⟨_, sliceSet_map_ok c 4 _ (by omega), by simpa using hlen⟩
  | SetEventQueueAccount a => exact ⟨_, sliceSet_map_ok c 5 _ (by omega), by simpa using hlen⟩

theorem runSetters_length (calls : List SetterCall) (c : CancelOrder)
    (hlen : c.AccountMetaSlice.length = 6) :
    ∃ c1, runSetters calls c = Except.ok c1 ∧ c1.AccountMetaSlice.length = 6 := by
  induction calls generalizing c with
  | nil => exact ⟨c, rfl, hlen⟩
  | cons call rest ih =>
    obtain ⟨c1, h1, hl1⟩ := setterCall_run_length call c hlen
    obtain ⟨c2, h2, hl2⟩ := ih c1 hl1
    exact ⟨c2, by simp only [runSetters, h1, h2], hl2⟩

theorem setterCall_run_orderId (call : SetterCall) (c c1 : CancelOrder)
    (hcall : call.isSetOrderId = false) (hrun : call.run c = Except.ok c1) :
    c1.OrderId = c.OrderId := by
  cases call with
  | SetSide s =>
    simp only [SetterCall.run, Except.ok.injEq] at hrun
    subst hrun; rfl
  | SetOrderId o => simp [SetterCall.isSetOrderId] at hcall
  | SetMarketAccount a | SetBidsAccount a | SetAsksAccount a | SetOpenOrdersAccount a
  | SetOwnerAccount a | SetEventQueueAccount a =>
    simp only [SetterCall.run, SetMarketAccount, SetBidsAccount, SetAsksAccount,
      SetOpenOrdersAccount, SetOwnerAccount, SetEventQueueAccount, sliceSet] at hrun
    split at hrun
    · simp only [Except.map, Except.ok.injEq] at hrun
      subst hrun; rfl
    · simp [Except.map] at hrun

theorem runSetters_orderId (calls : List SetterCall) (c c1 : CancelOrder)
    (hcalls : ∀ call ∈ calls, call.isSetOrderId = false)
    (hrun : runSetters calls c = Except.ok c1) : c1.OrderId = c.OrderId := by
  induction calls generalizing c with
  | nil =>
    simp only [runSetters, Except.ok.injEq] at hrun
    subst hrun; rfl
  | cons call rest ih =>
    simp only [runSetters] at hrun
    cases h1 : call.run c with
    | error p => simp [h1] at hrun
    | ok c2 =>
      simp only [h1] at hrun
      rw [ih c2 (fun x hx => hcalls x (List.mem_cons_of_mem _ hx)) hrun]
      exact setterCall_run_orderId call c c2 (hcalls call (List.mem_cons_self _ _)) h1

theorem sliceGet_ok {α : Type} (s : List α) (i : Nat) (h : i < s.length) :
    ∃ v, sliceGet s i = Except.ok v := by
  simp [sliceGet, List.getElem?_eq_getElem h]

/-- C17: a zero value counts as set. After `SetOrderId` with order id 0 the
OrderId is set to 0 and `Validate` does not report OrderId as missing; after
`SetSide` with the side of tag 0 the Side is set and `Validate` does not report
Side as missing; a builder with that Side, order id 0 and six accounts set
passes `Validate`; a builder made from a fresh one by setter calls none of
which is `SetOrderId` fails `Validate`. -/
theorem zero_value_is_set (c : CancelOrder) :
    ((c.SetOrderId zeroOrderId).OrderId = some zeroOrderId ∧ zeroOrderId.val = 0 ∧
        (c.SetOrderId zeroOrderId).OrderId ≠ none ∧
        (c.SetOrderId zeroOrderId).Validate ≠ some "CancelOrder.OrderId parameter is not set") ∧
      ((c.SetSide Side.Buy).Side = some Side.Buy ∧ Side.Buy.tag = 0 ∧
        (c.SetSide Side.Buy).Side ≠ none ∧
        (c.SetSide Side.Buy).Validate ≠ some "CancelOrder.Side parameter is not set") ∧
      (c.AccountMetaSlice.length = 6 → (∀ i, i < 6 → c.slotSet i) →
        ((c.SetSide Side.Buy).SetOrderId zeroOrderId).Validate = none) ∧
      (∀ calls : List SetterCall, (∀ call ∈ calls, call.isSetOrderId = false) →
        ∃ c1, runSetters calls NewCancelOrderInstructionBuilder = Except.ok c1 ∧
          c1.OrderId = none ∧ c1.Validate ≠ none) := by
  refine ⟨⟨rfl, rfl, by simp [SetOrderId], ?_⟩, ⟨rfl, rfl, by simp [SetSide], ?_⟩, ?_, ?_⟩
  · intro h
    unfold Validate at h
    split at h
    · exact absurd (Option.some.inj h) (by decide)
    · simp only [SetOrderId, reduceCtorEq, if_false] at h
      obtain ⟨i, hi⟩ := validateAccounts_message _ _ _ h
      exact orderIdNotSet_ne_accountNotSet i hi
  · intro h
    unfold Validate at h
    simp only [SetSide, reduceCtorEq, if_false] at h
    split at h
    · exact absurd (Option.some.inj h) (by decide)
    · obtain ⟨i, hi⟩ := validateAccounts_message _ _ _ h
      exact sideNotSet_ne_accountNotSet i hi
  · intro hlen hall
    simp only [Validate, SetSide, SetOrderId, reduceCtorEq, if_false]
    rw [validateAccounts_eq_none, hlen]
    exact hall
  · intro calls hcalls
    obtain ⟨c1, h1, _⟩ := runSetters_length calls NewCancelOrderInstructionBuilder rfl
    have ho : c1.OrderId = none := runSetters_orderId calls _ c1 hcalls h1
    refine ⟨c1, h1, ho, ?_⟩
    unfold Validate
    split
    · simp
    · simp [ho]

/-- The full sample builder with Side of tag 0 and order id 0 passes `Validate`;
a fresh builder given a Side and an owner, but no order id, fails it. -/
theorem zero_value_is_set_witness :
    ((fullBuilder.SetSide Side.Buy).SetOrderId zeroOrderId).Validate = none ∧
      ∃ c1, runSetters [SetterCall.SetSide Side.Buy, SetterCall.SetOwnerAccount (sampleKey 14)]
          NewCancelOrderInstructionBuilder = Except.ok c1 ∧
        c1.OrderId = none ∧ c1.Validate ≠ none :=
  ⟨(zero_value_is_set fullBuilder).2.2.1 rfl (by
      intro i hi
      unfold slotSet
      interval_cases i <;> exact ⟨_, rfl⟩),
    (zero_value_is_set fullBuilder).2.2.2 _ (by decide)⟩

/-- C19: the fresh builder has six nil slots and both parameters nil, and every
finite sequence of setter calls run on it succeeds and ends in a builder whose
account slice has length exactly 6; on that builder each of the six getters
and each of the six account setters is in range and returns without a panic. -/
theorem reachable_length_six (calls : List SetterCall) :
    (NewCancelOrderInstructionBuilder.AccountMetaSlice = [none, none, none, none, none, none] ∧
        NewCancelOrderInstructionBuilder.Side = none ∧
        NewCancelOrderInstructionBuilder.OrderId = none) ∧
      ∃ c, runSetters calls NewCancelOrderInstructionBuilder = Except.ok c ∧
        c.AccountMetaSlice.length = 6 ∧
        ((∃ m, c.MarketAccount = Except.ok m) ∧ (∃ m, c.BidsAccount = Except.ok m) ∧
          (∃ m, c.AsksAccount = Except.ok m) ∧ (∃ m, c.OpenOrdersAccount = Except.ok m) ∧
          (∃ m, c.OwnerAccount = Except.ok m) ∧ (∃ m, c.EventQueueAccount = Except.ok m)) ∧
        (∀ a, (∃ c1, c.SetMarketAccount a = Except.ok c1) ∧
          (∃ c1, c.SetBidsAccount a = Except.ok c1) ∧
          (∃ c1, c.SetAsksAccount a = Except.ok c1) ∧
          (∃ c1, c.SetOpenOrdersAccount a = Except.ok c1) ∧
          (∃ c1, c.SetOwnerAccount a = Except.ok c1) ∧
          (∃ c1, c.SetEventQueueAccount a = Except.ok c1)) := by
  refine ⟨⟨rfl, rfl, rfl⟩, ?_⟩
  obtain ⟨c, hrun, hlen⟩ := runSetters_length calls NewCancelOrderInstructionBuilder rfl
  refine ⟨c, hrun, hlen, ⟨?_, ?_, ?_, ?_, ?_, ?_⟩, fun a => ⟨?_, ?_, ?_, ?_, ?_, ?_⟩⟩
  · exact sliceGet_ok _ 0 (by omega)
  · exact sliceGet_ok _ 1 (by omega)
  · exact sliceGet_ok _ 2 (by omega)
  · exact sliceGet_ok _ 3 (by omega)
  · exact sliceGet_ok _ 4 (by omega)
  · exact sliceGet_ok _ 5 (by omega)
  · exact ⟨_, sliceSet_map_ok c 0 _ (by omega)⟩
  · exact ⟨_, sliceSet_map_ok c 1 _ (by omega)⟩
  · exact ⟨_, sliceSet_map_ok c 2 _ (by omega)⟩
  · exact ⟨_, sliceSet_map_ok c 3 _ (by omega)⟩
  · exact ⟨_, sliceSet_map_ok c 4 _ (by omega)⟩
  · exact ⟨_, sliceSet_map_ok c 5 _ (by omega)⟩

/-- C20: on every builder on which `Validate` succeeds, Side and OrderId are set,
so `MarshalWithEncoder` dereferences set values only: it returns the encoder
with the Side byte and the OrderId bytes appended and no error, never the
nil-dereference panic; the same holds on the instruction that
`ValidateAndBuild` returns. -/
theorem validate_then_marshal (K : Fin (2 ^ 32)) (c : CancelOrder) (encoder : Encoder)
    (hv : c.Validate = none) :
    (∃ s o, c.Side = some s ∧ c.OrderId = some o ∧
        c.MarshalWithEncoder encoder = Except.ok
          ({ written := encoder.written ++ leBytes 1 s.tag ++ leBytes 16 o.val }, none)) ∧
      c.MarshalWithEncoder encoder ≠ Except.error Panic.nilDereference ∧
      (∃ inst, c.ValidateAndBuild K = (some inst, none) ∧
        (∃ out, inst.BaseVariant.Impl.MarshalWithEncoder encoder = Except.ok (out, none)) ∧
        inst.BaseVariant.Impl.MarshalWithEncoder encoder ≠
          Except.error Panic.nilDereference) := by
  have hso : ∃ s o, c.Side = some s ∧ c.OrderId = some o := by
    unfold Validate at hv
    cases hs : c.Side with
    | none => simp [hs] at hv
    | some s =>
      cases ho : c.OrderId with
      | none => simp [hs, ho] at hv
      | some o => exact ⟨s, o, rfl, rfl⟩
  obtain ⟨s, o, hs, ho⟩ := hso
  have hm := marshal_set c s o hs ho encoder
  refine ⟨⟨s, o, hs, ho, hm⟩, by rw [hm]; simp, c.Build K, by simp [ValidateAndBuild, hv],
    ⟨_, hm⟩, ?_⟩
  have hb : (c.Build K).BaseVariant.Impl = c := rfl
  rw [hb, hm]
  simp

/-- The full sample builder validates, and encoding it does not panic. -/
theorem validate_then_marshal_witness :
    fullBuilder.Validate = none ∧
      fullBuilder.MarshalWithEncoder NewBinEncoder ≠ Except.error Panic.nilDereference :=
  ⟨by decide, (validate_then_marshal 7 fullBuilder NewBinEncoder (by decide)).2.1⟩

/-! ## Facts about the builder in memory -/

theorem heap_load_store (mem : Heap.Memory) (p : Nat) (v0 v : Heap.CancelOrder)
    (h : mem.load p = Except.ok v0) : (mem.store p v).load p = Except.ok v := by
  unfold Heap.Memory.load at h
  cases hp : mem.structs[p]? with
  | none => simp [hp] at h
  | some w =>
    have hlt : p < mem.structs.length := by
      by_contra hge
      rw [List.getElem?_eq_none (by omega)] at hp
      cases hp
    simp [Heap.Memory.load, Heap.Memory.store, List.getElem?_set, hlt]

theorem heap_load_store_ne (mem : Heap.Memory) (p q : Nat) (v : Heap.CancelOrder)
    (h : q ≠ p) : (mem.store p v).load q = mem.load q := by
  simp [Heap.Memory.load, Heap.Memory.store, List.getElem?_set, Ne.symm h]

theorem heap_store_store (mem : Heap.Memory) (p : Nat) (v w : Heap.CancelOrder) :
    (mem.store p v).store p w = mem.store p w := by
  simp [Heap.Memory.store, List.set_set]

theorem heap_assign_ok (mem : Heap.Memory) (s : Heap.Slice) (i : Nat)
    (x : Option AccountMeta) (hi : i < (mem.elems s).length) :
    ∃ mem1, mem.assign s i x = Except.ok mem1 ∧ mem1.structs = mem.structs ∧
      mem1.elems s = (mem.elems s).set i x := by
  refine ⟨Heap.Memory.mk mem.structs
      (mem.arrays.set s.array (((mem.arrays[s.array]?).getD []).set i x)),
    by simp only [Heap.Memory.assign, if_pos hi], rfl, ?_⟩
  unfold Heap.Memory.elems at hi ⊢
  cases ha : mem.arrays[s.array]? with
  | none => simp [ha] at hi
  | some arr =>
    have hlt : s.array < mem.arrays.length := by
      by_contra hge
      rw [List.getElem?_eq_none (by omega)] at ha
      cases ha
    simp [List.getElem?_set, hlt, List.set_take]

theorem heap_setAccount_ok (mem : Heap.Memory) (c : Nat) (v : Heap.CancelOrder) (i : Nat)
    (m : AccountMeta) (hc : mem.load c = Except.ok v)
    (hi : i < (mem.elems v.AccountMetaSlice).length) :
    ∃ mem1, Heap.setAccount mem c i m = Except.ok (mem1, c) ∧ mem1.load c = Except.ok v ∧
      mem1.structs = mem.structs ∧
      mem1.elems v.AccountMetaSlice = (mem.elems v.AccountMetaSlice).set i (some m) := by
  obtain ⟨mem1, h1, hs, he⟩ := heap_assign_ok mem v.AccountMetaSlice i (some m) hi
  refine ⟨mem1, by simp only [Heap.setAccount, hc, h1], ?_, hs, he⟩
  unfold Heap.Memory.load at hc ⊢
  rw [hs]
  exact hc

theorem heap_setAccount_sim (mem : Heap.Memory) (c : Nat) (v : Heap.CancelOrder) (i : Nat)
    (m : AccountMeta) (hc : mem.load c = Except.ok v)
    (hi : i < (mem.elems v.AccountMetaSlice).length) :
    ∃ mem1, Heap.setAccount mem c i m = Except.ok (mem1, c) ∧ mem1.load c = Except.ok v ∧
      (sliceSet (mem.view v).AccountMetaSlice i (some m)).map
          (fun s => { mem.view v with AccountMetaSlice := s }) =
        Except.ok (mem1.view v) ∧
      (mem1.elems v.AccountMetaSlice).length = (mem.elems v.AccountMetaSlice).length := by
  obtain ⟨mem1, h1, hl, _, he⟩ := heap_setAccount_ok mem c v i m hc hi
  refine ⟨mem1, h1, hl, ?_, by rw [he, List.length_set]⟩
  rw [sliceSet_map_ok (mem.view v) i m hi]
  simp only [Heap.Memory.view, he]

theorem heap_runCall_sim (call : SetterCall) (mem : Heap.Memory) (c : Nat)
    (v : Heap.CancelOrder) (hc : mem.load c = Except.ok v)
    (hlen : (mem.elems v.AccountMetaSlice).length = 6) :
    ∃ mem1 v1, Heap.runCall call mem c = Except.ok (mem1, c) ∧ mem1.load c = Except.ok v1 ∧
      v1.AccountMetaSlice = v.AccountMetaSlice ∧
      (mem1.elems v.AccountMetaSlice).length = 6 ∧
      call.run (mem.view v) = Except.ok (mem1.view v1) := by
  cases call with
  | SetSide s =>
    exact ⟨mem.store c { v with Side := some s }, { v with Side := some s },
      by simp only [Heap.runCall, Heap.CancelOrder.SetSide, hc],
      heap_load_store mem c v _ hc, rfl, hlen, rfl⟩
  | SetOrderId o =>
    exact ⟨mem.store c { v with OrderId := some o }, { v with OrderId := some o },
      by simp only [Heap.runCall, Heap.CancelOrder.SetOrderId, hc],
      heap_load_store mem c v _ hc, rfl, hlen, rfl⟩
  | SetMarketAccount a =>
    obtain ⟨mem1, h1, h2, h3, h4⟩ := heap_setAccount_sim mem c v 0 (Meta a).WRITE hc (by omega)
    exact ⟨mem1, v, h1, h2, rfl, by rw [h4, hlen], h3⟩
  | SetBidsAccount a =>
    obtain ⟨mem1, h1, h2, h3, h4⟩ := heap_setAccount_sim mem c v 1 (Meta a).WRITE hc (by omega)
    exact ⟨mem1, v, h1, h2, rfl, by rw [h4, hlen], h3⟩
  | SetAsksAccount a =>
    obtain ⟨mem1, h1, h2, h3, h4⟩ := heap_setAccount_sim mem c v 2 (Meta a).WRITE hc (by omega)
    exact ⟨mem1, v, h1, h2, rfl, by rw [h4, hlen], h3⟩
  | SetOpenOrdersAccount a =>
    obtain ⟨mem1, h1, h2, h3, h4⟩ := heap_setAccount_sim mem c v 3 (Meta a).WRITE hc (by omega)
    exact ⟨mem1, v, h1, h2, rfl, by rw [h4, hlen], h3⟩
  | SetOwnerAccount a =>
    obtain ⟨mem1, h1, h2, h3, h4⟩ :=
      heap_setAccount_sim mem c v 4 (Meta a).WRITE.SIGNER hc (by omega)
    exact ⟨mem1, v, h1, h2, rfl, by rw [h4, hlen], h3⟩
  | SetEventQueueAccount a =>
    obtain ⟨mem1, h1, h2, h3, h4⟩ := heap_setAccount_sim mem c v 5 (Meta a).WRITE hc (by omega)
    exact ⟨mem1, v, h1, h2, rfl, by rw [h4, hlen], h3⟩

theorem heap_runCalls_sim (calls : List SetterCall) (mem : Heap.Memory) (c : Nat)
    (v : Heap.CancelOrder) (hc : mem.load c = Except.ok v)
    (hlen : (mem.elems v.AccountMetaSlice).length = 6) :
    ∃ mem1 v1, Heap.runCalls calls mem c = Except.ok (mem1, c) ∧ mem1.load c = Except.ok v1 ∧
      v1.AccountMetaSlice = v.AccountMetaSlice ∧
      runSetters calls (mem.view v) = Except.ok (mem1.view v1) := by
  induction calls generalizing mem v with
  | nil => exact ⟨mem, v, rfl, hc, rfl, rfl⟩
  | cons call rest ih =>
    obtain ⟨mem1, v1, h1, h2, h3, h4, h5⟩ := heap_runCall_sim call mem c v hc hlen
    obtain ⟨mem2, v2, k1, k2, k3, k4⟩ := ih mem1 v1 h2 (by rw [h3]; exact h4)
    exact ⟨mem2, v2, by simp only [Heap.runCalls, h1, k1], k2, by rw [k3, h3],
      by simp only [runSetters, h5, k4]⟩

theorem heap_new_view (mem : Heap.Memory) :
    ∃ v, (Heap.NewCancelOrderInstructionBuilder mem).1.load
        (Heap.NewCancelOrderInstructionBuilder mem).2 = Except.ok v ∧
      (Heap.NewCancelOrderInstructionBuilder mem).1.view v =
        SolanaGo.NewCancelOrderInstructionBuilder := by
  refine ⟨{ Side := none, OrderId := none,
            AccountMetaSlice := { array := mem.arrays.length, len := 6 } }, ?_, ?_⟩
  · simp [Heap.NewCancelOrderInstructionBuilder, Heap.Memory.load]
  · simp [Heap.NewCancelOrderInstructionBuilder, Heap.Memory.view, Heap.Memory.elems,
      SolanaGo.NewCancelOrderInstructionBuilder]

theorem setterCall_run_parameter (call : SetterCall) (c c1 : CancelOrder)
    (hcall : call.isParameterSetter = true) (hrun : call.run c = Except.ok c1) :
    c1.AccountMetaSlice = c.AccountMetaSlice := by
  cases call with
  | SetSide s =>
    simp only [SetterCall.run, Except.ok.injEq] at hrun
    subst hrun; rfl
  | SetOrderId o =>
    simp only [SetterCall.run, Except.ok.injEq] at hrun
    subst hrun; rfl
  | SetMarketAccount a | SetBidsAccount a | SetAsksAccount a | SetOpenOrdersAccount a
  | SetOwnerAccount a | SetEventQueueAccount a =>
    simp [SetterCall.isParameterSetter] at hcall

theorem runSetters_parameter (calls : List SetterCall) (c c1 : CancelOrder)
    (hcalls : ∀ call ∈ calls, call.isParameterSetter = true)
    (hrun : runSetters calls c = Except.ok c1) :
    c1.AccountMetaSlice = c.AccountMetaSlice := by
  induction calls generalizing c with
  | nil =>
    simp only [runSetters, Except.ok.injEq] at hrun
    subst hrun; rfl
  | cons call rest ih =>
    simp only [runSetters] at hrun
    cases h1 : call.run c with
    | error p => simp [h1] at hrun
    | ok c2 =>
      simp only [h1] at hrun
      rw [ih c2 (fun x hx => hcalls x (List.mem_cons_of_mem _ hx)) hrun]
      exact setterCall_run_parameter call c c2 (hcalls call (List.mem_cons_self _ _)) h1

/-- C12, as the code has it: `Build` copies the struct, so the Side and OrderId
observed through the built instruction stay as they were at `Build` whatever
setters are called on the builder afterwards, and after calls of `SetSide` and
`SetOrderId` only, all that is observed through it is unchanged; but the copy
shares the backing array of the account slice, so after any sequence of
setter calls the account slots observed through the instruction are the
builder's current account slots. -/
theorem build_shares_accounts (K : Fin (2 ^ 32)) (mem : Heap.Memory) (b : Nat)
    (v : Heap.CancelOrder) (hb : mem.load b = Except.ok v)
    (hlen : (mem.elems v.AccountMetaSlice).length = 6) (calls : List SetterCall) :
    ∃ i, Heap.CancelOrder.Build K mem b = Except.ok i ∧
      mem.view i.BaseVariant.Impl = mem.view v ∧
      ∃ mem1 v1 c1, Heap.runCalls calls mem b = Except.ok (mem1, b) ∧
        mem1.load b = Except.ok v1 ∧ mem1.view v1 = c1 ∧
        runSetters calls (mem.view v) = Except.ok c1 ∧
        (mem1.view i.BaseVariant.Impl).Side = (mem.view i.BaseVariant.Impl).Side ∧
        (mem1.view i.BaseVariant.Impl).OrderId = (mem.view i.BaseVariant.Impl).OrderId ∧
        (mem1.view i.BaseVariant.Impl).AccountMetaSlice = c1.AccountMetaSlice ∧
        ((∀ call ∈ calls, call.isParameterSetter = true) →
          mem1.view i.BaseVariant.Impl = mem.view i.BaseVariant.Impl) := by
  obtain ⟨mem1, v1, h1, h2, h3, h4⟩ := heap_runCalls_sim calls mem b v hb hlen
  refine ⟨{ BaseVariant := { Impl := v, TypeID := TypeIDFromUint32 K } },
    by simp only [Heap.CancelOrder.Build, hb], rfl, mem1, v1, mem1.view v1, h1, h2, rfl, h4,
    rfl, rfl, ?_, ?_⟩
  · simp only [Heap.Memory.view, h3]
  · intro hcalls
    have hs := runSetters_parameter calls _ _ hcalls h4
    simp only [Heap.Memory.view] at hs ⊢
    rw [h3] at hs
    rw [hs]

/-- A fresh builder is built and its owner is set afterwards: the instruction
then shows the builder's current slots, owner included. -/
theorem build_shares_accounts_witness :
    Heap.freshMemory.load 0 = Except.ok
        { Side := none, OrderId := none, AccountMetaSlice := { array := 0, len := 6 } } ∧
      ∃ i, Heap.CancelOrder.Build 7 Heap.freshMemory 0 = Except.ok i ∧
        ∃ mem1 c1, Heap.runCalls [SetterCall.SetOwnerAccount (sampleKey 14)]
            Heap.freshMemory 0 = Except.ok (mem1, 0) ∧
          runSetters [SetterCall.SetOwnerAccount (sampleKey 14)]
            NewCancelOrderInstructionBuilder = Except.ok c1 ∧
          (mem1.view i.BaseVariant.Impl).AccountMetaSlice = c1.AccountMetaSlice :=
  ⟨rfl,
    match build_shares_accounts 7 Heap.freshMemory 0 _ rfl rfl
        [SetterCall.SetOwnerAccount (sampleKey 14)] with
    | ⟨i, h1, _, mem1, _, c1, h2, _, _, h3, _, _, h4, _⟩ => ⟨i, h1, mem1, c1, h2, h3, h4⟩⟩

/-- C12, the claim as stated fails: a fresh builder is built, and then
`SetMarketAccount` is called on the builder; the market slot observed through
the instruction was nil when `Build` returned and holds the new reference
afterwards. -/
theorem build_not_snapshot :
    ∃ i mem1, Heap.CancelOrder.Build 7 Heap.freshMemory 0 = Except.ok i ∧
      Heap.CancelOrder.SetMarketAccount Heap.freshMemory 0 (sampleKey 10) = Except.ok (mem1, 0) ∧
      (Heap.freshMemory.view i.BaseVariant.Impl).MarketAccount = Except.ok none ∧
      (mem1.view i.BaseVariant.Impl).MarketAccount =
        Except.ok (some (Meta (sampleKey 10)).WRITE) ∧
      (mem1.view i.BaseVariant.Impl).AccountMetaSlice ≠
        (Heap.freshMemory.view i.BaseVariant.Impl).AccountMetaSlice :=
  ⟨_, _, rfl, rfl, rfl, rfl, by decide⟩

/-- C16: `Validate` called through a builder pointer returns the memory exactly
as it found it, so Side, OrderId and all account slots are as they were, and
its outcome is the one computed from that state; any number of calls in a row
leave the memory unchanged and all return that same outcome. -/
theorem validate_read_only (mem : Heap.Memory) (c : Nat) (v : Heap.CancelOrder)
    (hc : mem.load c = Except.ok v) (n : Nat) :
    (∃ mem1 err, Heap.CancelOrder.Validate mem c = Except.ok (mem1, err) ∧ mem1 = mem ∧
        mem1.load c = Except.ok v ∧ mem1.view v = mem.view v ∧
        err = (mem.view v).Validate) ∧
      Heap.CancelOrder.validateTimes n mem c =
        Except.ok (mem, List.replicate n (mem.view v).Validate) := by
  have hv : Heap.CancelOrder.Validate mem c = Except.ok (mem, (mem.view v).Validate) := by
    simp only [Heap.CancelOrder.Validate, hc, Validate, Heap.Memory.view]
    split
    · rfl
    · split <;> rfl
  refine ⟨⟨mem, _, hv, rfl, hc, rfl, rfl⟩, ?_⟩
  induction n with
  | zero => rfl
  | succ k ih => simp only [Heap.CancelOrder.validateTimes, hv, ih, List.replicate_succ]

/-- Three calls of `Validate` on a fresh builder leave the memory as it was and
each reports the missing Side. -/
theorem validate_read_only_witness :
    Heap.freshMemory.load 0 = Except.ok
        { Side := none, OrderId := none, AccountMetaSlice := { array := 0, len := 6 } } ∧
      Heap.CancelOrder.validateTimes 3 Heap.freshMemory 0 =
        Except.ok (Heap.freshMemory,
          [some "CancelOrder.Side parameter is not set",
           some "CancelOrder.Side parameter is not set",
           some "CancelOrder.Side parameter is not set"]) :=
  ⟨rfl, (validate_read_only Heap.freshMemory 0 _ rfl 3).2⟩

/-- C18: on every builder `SetSide` and `SetOrderId` succeed and return the
pointer they were called on; each writes its own field of the struct and
leaves the other parameter, the slice, the backing arrays and every other
struct as they were; and setting a parameter twice leaves the memory as the
second call alone does. -/
theorem parameter_setters_overwrite (mem : Heap.Memory) (c : Nat) (v : Heap.CancelOrder)
    (hc : mem.load c = Except.ok v) (s1 s2 : SolanaGo.Side) (o1 o2 : Uint128) :
    (∃ mem1, Heap.CancelOrder.SetSide mem c s1 = Except.ok (mem1, c) ∧
        mem1.load c = Except.ok { v with Side := some s1 } ∧
        mem1.arrays = mem.arrays ∧ (∀ q, q ≠ c → mem1.load q = mem.load q) ∧
        mem1.view { v with Side := some s1 } = (mem.view v).SetSide s1 ∧
        ∃ mem2, Heap.CancelOrder.SetSide mem1 c s2 = Except.ok (mem2, c) ∧
          Heap.CancelOrder.SetSide mem c s2 = Except.ok (mem2, c)) ∧
      (∃ mem1, Heap.CancelOrder.SetOrderId mem c o1 = Except.ok (mem1, c) ∧
        mem1.load c = Except.ok { v with OrderId := some o1 } ∧
        mem1.arrays = mem.arrays ∧ (∀ q, q ≠ c → mem1.load q = mem.load q) ∧
        mem1.view { v with OrderId := some o1 } = (mem.view v).SetOrderId o1 ∧
        ∃ mem2, Heap.CancelOrder.SetOrderId mem1 c o2 = Except.ok (mem2, c) ∧
          Heap.CancelOrder.SetOrderId mem c o2 = Except.ok (mem2, c)) ∧
      (∀ p : CancelOrder,
        (p.SetSide s1).SetSide s2 = p.SetSide s2 ∧
        (p.SetOrderId o1).SetOrderId o2 = p.SetOrderId o2 ∧
        (p.SetSide s1).OrderId = p.OrderId ∧
        (p.SetSide s1).AccountMetaSlice = p.AccountMetaSlice ∧
        (p.SetOrderId o1).Side = p.Side ∧
        (p.SetOrderId o1).AccountMetaSlice = p.AccountMetaSlice) := by
  refine ⟨?_, ?_, fun p => ⟨rfl, rfl, rfl, rfl, rfl, rfl⟩⟩
  · have h1 := heap_load_store mem c v { v with Side := some s1 } hc
    refine ⟨mem.store c { v with Side := some s1 },
      by simp only [Heap.CancelOrder.SetSide, hc], h1, rfl,
      fun q hq => heap_load_store_ne mem c q _ hq, rfl,
      mem.store c { v with Side := some s2 }, ?_, by simp only [Heap.CancelOrder.SetSide, hc]⟩
    simp only [Heap.CancelOrder.SetSide, h1, heap_store_store]
  · have h1 := heap_load_store mem c v { v with OrderId := some o1 } hc
    refine ⟨mem.store c { v with OrderId := some o1 },
      by simp only [Heap.CancelOrder.SetOrderId, hc], h1, rfl,
      fun q hq => heap_load_store_ne mem c q _ hq, rfl,
      mem.store c { v with OrderId := some o2 }, ?_,
      by simp only [Heap.CancelOrder.SetOrderId, hc]⟩
    simp only [Heap.CancelOrder.SetOrderId, h1, heap_store_store]

/-- On a fresh builder, `SetSide` with Buy and then with Sell gives the memory
that `SetSide` with Sell alone gives. -/
theorem parameter_setters_overwrite_witness :
    Heap.freshMemory.load 0 = Except.ok
        { Side := none, OrderId := none, AccountMetaSlice := { array := 0, len := 6 } } ∧
      ∃ mem1, Heap.CancelOrder.SetSide Heap.freshMemory 0 Side.Buy = Except.ok (mem1, 0) ∧
        ∃ mem2, Heap.CancelOrder.SetSide mem1 0 Side.Sell = Except.ok (mem2, 0) ∧
          Heap.CancelOrder.SetSide Heap.freshMemory 0 Side.Sell = Except.ok (mem2, 0) :=
  ⟨rfl,
    match (parameter_setters_overwrite Heap.freshMemory 0 _ rfl Side.Buy Side.Sell
        zeroOrderId sampleOrderId).1 with
    | ⟨mem1, h1, _, _, _, _, mem2, h2, h3⟩ => ⟨mem1, h1, mem2, h2, h3⟩⟩

end CancelOrder

end SolanaGo
